import Mathlib

/-!
# asiotap::base_route_manager

A shallow embedding of `include/asiotap/base_route_manager.hpp`: the reference-counted
routing table of `base_route_manager<RouteManagerType, RouteType>` and the calls it makes
into the derived class (`register_route` / `unregister_route`).

Modelling decisions.

* `std::map<route_type, unsigned int>` is embedded twice. `routing_table_type` is the
  container under its contract, for a comparator that is a strict total order: a list of
  `(key, count)` pairs kept in ascending key order, walked with the two questions the
  container asks (`k < route`, then `route < k`). `libstdcxx.rb_tree` is the container as
  libstdc++ implements it, nodes and pointers, for any comparator: it is what the manager
  runs on with the header's own route type, whose `operator<` is not a strict weak
  ordering.
* `unsigned int` is a natural number reduced modulo `2 ^ 32` where the source increments it.
* The derived class is an abstract state `σ` with two operations that return the new state
  and, when they throw, the `boost::system::system_error` they throw.
* A C++ member function that may throw returns the pair of its outcome
  (`Except system_error _`) and the manager as the call left it.
* `calls` is a ghost log of the calls made into the derived class, in call order.
* `base_routing_table_entry` takes the types of its three fields as parameters, each with a
  linear order; `boost::optional` compares as its documentation states (an empty optional
  first), and an output stream is the text written to it so far.
-/

namespace asiotap

/-- The number of values of the source's `unsigned int` (32 bits). -/
def unsigned_int_modulus : Nat := 2 ^ 32

/-- The exception type `boost::system::system_error`, reduced to its error code. -/
structure system_error where
  code : Int
  deriving DecidableEq, Repr

/-- One call from the manager into the derived class. -/
inductive backend_call (R : Type) where
  | register_route (route : R)
  | unregister_route (route : R)
  deriving DecidableEq, Repr

/-- The derived class `RouteManagerType` as the base class uses it: two member functions
over the derived state. The second component is `none` when the call returns and `some e`
when it throws `e`. -/
structure RouteManagerType (R σ : Type) where
  register_route : σ → R → σ × Option system_error
  unregister_route : σ → R → σ × Option system_error

/-- The type `std::map<route_type, unsigned int>` under the contract of the container, a
comparator that is a strict total order: entries in ascending key order. The same
container for any comparator is `libstdcxx.rb_tree`. -/
abbrev routing_table_type (R : Type) := List (R × Nat)

namespace routing_table_type

variable {R : Type} [LinearOrder R]

/-- The member `std::map::find`: the mapped count at `route`, `none` standing for `end()`. -/
def find (route : R) : routing_table_type R → Option Nat
  | [] => none
  | (k, v) :: rest =>
    if k < route then find route rest
    else if route < k then none
    else some v

/-- The member `std::map::operator[]`, as far as it changes the container: when `route` is
absent an entry with a value-initialised count (`0`) is inserted at its place in key
order. -/
def subscript (route : R) : routing_table_type R → routing_table_type R
  | [] => [(route, 0)]
  | (k, v) :: rest =>
    if k < route then (k, v) :: subscript route rest
    else if route < k then (route, 0) :: (k, v) :: rest
    else (k, v) :: rest

/-- A write of `count` through a reference or iterator to the entry of `route`. -/
def assign (route : R) (count : Nat) : routing_table_type R → routing_table_type R
  | [] => []
  | (k, v) :: rest =>
    if k < route then (k, v) :: assign route count rest
    else if route < k then (k, v) :: rest
    else (k, count) :: rest

/-- The member `std::map::erase` at the position of `route`. -/
def erase (route : R) : routing_table_type R → routing_table_type R
  | [] => []
  | (k, v) :: rest =>
    if k < route then (k, v) :: erase route rest
    else if route < k then (k, v) :: rest
    else rest

/-- The representation invariant of `std::map`: keys strictly ascending (hence distinct). -/
def ordered (table : routing_table_type R) : Prop :=
  table.Pairwise (fun a b => a.1 < b.1)


end routing_table_type

/-- The class `base_route_manager`: its one data member, the state of the derived class it
is the base of, and the ghost log of calls made into the derived class. -/
structure base_route_manager (R σ : Type) where
  m_routing_table : routing_table_type R
  derived : σ
  calls : List (backend_call R)

section manager

variable {R σ : Type} [LinearOrder R]

/-- The defaulted constructor: an empty routing table. -/
def base_route_manager.fresh (d : σ) : base_route_manager R σ :=
  { m_routing_table := [], derived := d, calls := [] }

/-- The member `has_route`: the value of the expression its body returns,
`m_routing_table.find(route) != m_routing_table.end()`. (The source declares the member
with return type `void`.) -/
def has_route (self : base_route_manager R σ) (route : R) : Bool :=
  (routing_table_type.find route self.m_routing_table).isSome

/-- The member `add_route`. `m_routing_table[route]++ == 0` inserts a zero count when the
route is absent, stores the incremented count and compares the count read before the
increment with zero; only then `register_route` is called, and what it throws leaves
`add_route` with the table already updated. -/
def add_route (B : RouteManagerType R σ) (self : base_route_manager R σ) (route : R) :
    Except system_error Bool × base_route_manager R σ :=
  let inserted := routing_table_type.subscript route self.m_routing_table
  let old := (routing_table_type.find route inserted).getD 0
  let table := routing_table_type.assign route ((old + 1) % unsigned_int_modulus) inserted
  if old = 0 then
    match B.register_route self.derived route with
    | (d, none) =>
      (.ok true, { m_routing_table := table, derived := d,
                   calls := self.calls ++ [backend_call.register_route route] })
    | (d, some e) =>
      (.error e, { m_routing_table := table, derived := d,
                   calls := self.calls ++ [backend_call.register_route route] })
  else
    (.ok false, { m_routing_table := table, derived := self.derived, calls := self.calls })

/-- The member `remove_route`. The decrement `--route_position->second` is reached only
with a count greater than 1, so it does not wrap. -/
def remove_route (B : RouteManagerType R σ) (self : base_route_manager R σ) (route : R) :
    Except system_error Bool × base_route_manager R σ :=
  match routing_table_type.find route self.m_routing_table with
  | some count =>
    if count = 1 then
      match B.unregister_route self.derived route with
      | (d, none) =>
        (.ok true, { m_routing_table := routing_table_type.erase route self.m_routing_table,
                     derived := d,
                     calls := self.calls ++ [backend_call.unregister_route route] })
      | (d, some e) =>
        (.error e, { m_routing_table := self.m_routing_table, derived := d,
                     calls := self.calls ++ [backend_call.unregister_route route] })
    else if count > 1 then
      (.ok false, { m_routing_table :=
                      routing_table_type.assign route (count - 1) self.m_routing_table,
                    derived := self.derived, calls := self.calls })
    else
      (.ok false, self)
  | none => (.ok false, self)

/-- The loop of the destructor over the entries that are left to visit. Each iteration calls
`unregister_route(route.first)` inside `try`; the handler for `system_error` is empty, so
the loop goes on with the next entry either way. -/
def destructor_loop (B : RouteManagerType R σ) :
    routing_table_type R → σ → List (backend_call R) →
      Except system_error (σ × List (backend_call R))
  | [], d, calls => .ok (d, calls)
  | route :: rest, d, calls =>
    match B.unregister_route d route.1 with
    | (d', none) =>
      destructor_loop B rest d' (calls ++ [backend_call.unregister_route route.1])
    | (d', some _) =>
      destructor_loop B rest d' (calls ++ [backend_call.unregister_route route.1])

/-- The destructor `~base_route_manager`: the loop over `m_routing_table` in key order. The
result is the derived state and the call log at the end of the destructor body. -/
def destructor (B : RouteManagerType R σ) (self : base_route_manager R σ) :
    Except system_error (σ × List (backend_call R)) :=
  destructor_loop B self.m_routing_table self.derived self.calls

/-- A derived class whose two calls always return. -/
def succeeding_backend (R : Type) : RouteManagerType R Unit :=
  { register_route := fun d _ => (d, none), unregister_route := fun d _ => (d, none) }

/-- A derived class that follows a script: each call takes the next outcome of the script
(`some e` to throw `e`, `none` to return) and returns once the script is used up. -/
def scripted_backend (R : Type) : RouteManagerType R (List (Option system_error)) :=
  { register_route := fun d _ => (d.tail, d.head?.join),
    unregister_route := fun d _ => (d.tail, d.head?.join) }

/-- One call that a client makes on the public interface of the manager. -/
inductive client_call (R : Type) where
  | add_route (route : R)
  | remove_route (route : R)
  deriving DecidableEq, Repr

/-- The manager after one client call. An exception that leaves the call is the client's to
handle; the manager is as the call left it. -/
def step (B : RouteManagerType R σ) (self : base_route_manager R σ) :
    client_call R → base_route_manager R σ
  | .add_route route => (add_route B self route).2
  | .remove_route route => (remove_route B self route).2

/-- The manager after a sequence of client calls, first call first. -/
def run (B : RouteManagerType R σ) (self : base_route_manager R σ)
    (calls : List (client_call R)) : base_route_manager R σ :=
  calls.foldl (step B) self

/-- Whether a client call is an `add_route` call. -/
def client_call.is_add_route : client_call R → Bool
  | .add_route _ => true
  | .remove_route _ => false

end manager

/-! ### The routing table entry -/

/-- The struct `base_routing_table_entry<InterfaceType>`. The types of `network`
(`ip_network_address`) and of the address inside `gateway` (`boost::asio::ip::address`)
are declared outside this header and are parameters here. -/
structure base_routing_table_entry (InterfaceType N G : Type) where
  interface : InterfaceType
  network : N
  gateway : Option G
  deriving DecidableEq, Repr

section entry

variable {InterfaceType N G : Type}

/-- The `operator<` of `boost::optional`: an empty optional is less than every engaged one,
nothing is less than an empty one, two engaged optionals compare by their values. -/
def optional_less [LinearOrder G] : Option G → Option G → Bool
  | _, none => false
  | none, some _ => true
  | some x, some y => decide (x < y)

/-- The `operator==` of `boost::optional`: both empty, or both engaged with equal values. -/
def optional_equal [LinearOrder G] : Option G → Option G → Bool
  | none, none => true
  | some x, some y => decide (x = y)
  | _, _ => false

/-- The friend `operator==` of `base_routing_table_entry`. -/
def base_routing_table_entry.operator_equal [LinearOrder InterfaceType] [LinearOrder N]
    [LinearOrder G] (lhs rhs : base_routing_table_entry InterfaceType N G) : Bool :=
  (decide (lhs.interface = rhs.interface) && decide (lhs.network = rhs.network))
    && optional_equal lhs.gateway rhs.gateway

/-- The friend `operator<` of `base_routing_table_entry`. -/
def base_routing_table_entry.operator_less [LinearOrder InterfaceType] [LinearOrder N]
    [LinearOrder G] (lhs rhs : base_routing_table_entry InterfaceType N G) : Bool :=
  (decide (lhs.interface < rhs.interface) || decide (lhs.network < rhs.network))
    || optional_less lhs.gateway rhs.gateway

/-- The friend `operator<<` of `base_routing_table_entry`. The stream is the text written
to it so far, and `os << x` appends the rendering of `x`; the renderings of the three field
types are parameters. -/
def base_routing_table_entry.operator_output (render_interface : InterfaceType → String)
    (render_network : N → String) (render_gateway : G → String) (os : String)
    (value : base_routing_table_entry InterfaceType N G) : String :=
  match value.gateway with
  | some gateway =>
    os ++ render_interface value.interface ++ " - " ++ render_network value.network
      ++ " - " ++ render_gateway gateway
  | none =>
    os ++ render_interface value.interface ++ " - " ++ render_network value.network
      ++ " - no gateway"

end entry

/-! ### Sequences of client calls -/

section client

variable {R σ : Type} [LinearOrder R]

/-- What one client call returns or throws. -/
def outcome (B : RouteManagerType R σ) (self : base_route_manager R σ) :
    client_call R → Except system_error Bool
  | .add_route route => (add_route B self route).1
  | .remove_route route => (remove_route B self route).1

/-- What the calls of a sequence return or throw, first call first, each call made on the
manager as the calls before it left it. -/
def outcomes (B : RouteManagerType R σ) :
    base_route_manager R σ → List (client_call R) → List (Except system_error Bool)
  | _, [] => []
  | self, call :: rest => outcome B self call :: outcomes B (step B self call) rest

/-- The derived state after the calls of a log are made on it in order, each call on the
state that the call before it left, whether that call returned or threw. -/
def after_calls (B : RouteManagerType R σ) (d : σ) (calls : List (backend_call R)) : σ :=
  calls.foldl (fun d c => match c with
    | .register_route r => (B.register_route d r).1
    | .unregister_route r => (B.unregister_route d r).1) d

/-- One step of reading the call log for `route`. The state is a pair: whether the calls
for `route` read so far alternate (a `register_route` only while not installed, an
`unregister_route` only while installed), and whether `route` is installed after them. -/
def track_step (route : R) (state : Bool × Bool) : backend_call R → Bool × Bool
  | .register_route r => if r = route then (state.1 && !state.2, true) else state
  | .unregister_route r => if r = route then (state.1 && state.2, false) else state

/-- The call log read for `route` from a derived class with nothing installed. -/
def track (route : R) (calls : List (backend_call R)) : Bool × Bool :=
  calls.foldl (track_step route) (true, false)

/-- Whether `route` is installed through the derived class after the calls of the log:
registered and not unregistered since. -/
def installed (route : R) (calls : List (backend_call R)) : Bool :=
  (track route calls).2

/-- Whether the `register_route(route)` and `unregister_route(route)` calls of the log
strictly alternate, starting with `register_route(route)`. -/
def alternates (route : R) (calls : List (backend_call R)) : Bool :=
  (track route calls).1

end client

/-! ### The container as libstdc++ implements it

`std::map` is `_Rb_tree` of libstdc++ (`bits/stl_map.h`, `bits/stl_tree.h`, `tree.cc`): a
red-black tree of nodes with parent, left and right pointers and a header node. The
functions below follow that code statement by statement and use the comparator only as the
library does, so they also say what the container does with a comparator that is not a
strict weak ordering. A result `none` stands for behaviour this model does not determine:
a null pointer is dereferenced, or a loop runs longer than its bound. -/

namespace libstdcxx

/-- A `_Rb_tree_node_base*`: null, the header node (`end()`), or the node created as the
`index`-th. -/
inductive node_ptr where
  | null
  | header
  | node (index : Nat)
  deriving DecidableEq, Repr

/-- A tree node: `_M_color`, `_M_parent`, `_M_left`, `_M_right` and the stored pair. -/
structure rb_node (K : Type) where
  red : Bool
  parent : node_ptr
  left : node_ptr
  right : node_ptr
  key : K
  count : Nat
  deriving DecidableEq, Repr

/-- The tree: the header node (`_M_color`, `_M_parent` is the root, `_M_left` the leftmost
and `_M_right` the rightmost node), the nodes created so far (`none` once the node has
been destroyed) and `_M_node_count`. -/
structure rb_tree (K : Type) where
  header_red : Bool
  root : node_ptr
  leftmost : node_ptr
  rightmost : node_ptr
  nodes : List (Option (rb_node K))
  node_count : Nat
  deriving DecidableEq, Repr

namespace rb_tree

variable {K : Type}

/-- The tree of a default-constructed map. -/
def empty : rb_tree K :=
  { header_red := true, root := .null, leftmost := .header, rightmost := .header,
    nodes := [], node_count := 0 }

/-- The bound on the iterations of a loop over the nodes of the tree. -/
def fuel (t : rb_tree K) : Nat := t.nodes.length + 2

/-- Reads `p->_M_parent`. -/
def parent_of (t : rb_tree K) : node_ptr → Option node_ptr
  | .null => none
  | .header => some t.root
  | .node i => (t.nodes[i]?).join.map (fun n => n.parent)

/-- Reads `p->_M_left`. -/
def left_of (t : rb_tree K) : node_ptr → Option node_ptr
  | .null => none
  | .header => some t.leftmost
  | .node i => (t.nodes[i]?).join.map (fun n => n.left)

/-- Reads `p->_M_right`. -/
def right_of (t : rb_tree K) : node_ptr → Option node_ptr
  | .null => none
  | .header => some t.rightmost
  | .node i => (t.nodes[i]?).join.map (fun n => n.right)

/-- Reads `p->_M_color == _S_red`. -/
def is_red (t : rb_tree K) : node_ptr → Option Bool
  | .null => none
  | .header => some t.header_red
  | .node i => (t.nodes[i]?).join.map (fun n => n.red)

/-- Reads the key of a node, `_S_key(p)`. -/
def key_of (t : rb_tree K) : node_ptr → Option K
  | .node i => (t.nodes[i]?).join.map (fun n => n.key)
  | _ => none

/-- Reads the mapped value of a node, `p->second`. -/
def count_of (t : rb_tree K) : node_ptr → Option Nat
  | .node i => (t.nodes[i]?).join.map (fun n => n.count)
  | _ => none

/-- Rewrites the node created as the `i`-th. -/
def update (t : rb_tree K) (i : Nat) (f : rb_node K → rb_node K) : Option (rb_tree K) :=
  match (t.nodes[i]?).join with
  | some n => some { t with nodes := t.nodes.set i (some (f n)) }
  | none => none

/-- Writes `p->_M_parent = v`. -/
def set_parent (t : rb_tree K) : node_ptr → node_ptr → Option (rb_tree K)
  | .null, _ => none
  | .header, v => some { t with root := v }
  | .node i, v => t.update i (fun n => { n with parent := v })

/-- Writes `p->_M_left = v`. -/
def set_left (t : rb_tree K) : node_ptr → node_ptr → Option (rb_tree K)
  | .null, _ => none
  | .header, v => some { t with leftmost := v }
  | .node i, v => t.update i (fun n => { n with left := v })

/-- Writes `p->_M_right = v`. -/
def set_right (t : rb_tree K) : node_ptr → node_ptr → Option (rb_tree K)
  | .null, _ => none
  | .header, v => some { t with rightmost := v }
  | .node i, v => t.update i (fun n => { n with right := v })

/-- Writes `p->_M_color`. -/
def set_red (t : rb_tree K) : node_ptr → Bool → Option (rb_tree K)
  | .null, _ => none
  | .header, v => some { t with header_red := v }
  | .node i, v => t.update i (fun n => { n with red := v })

/-- Writes the mapped value of a node. -/
def set_count (t : rb_tree K) : node_ptr → Nat → Option (rb_tree K)
  | .node i, v => t.update i (fun n => { n with count := v })
  | _, _ => none

/-- The loop `while (x->_M_left != 0) x = x->_M_left;` (`_S_minimum`). -/
def minimum : Nat → rb_tree K → node_ptr → Option node_ptr
  | 0, _, _ => none
  | n + 1, t, x => do
    let l ← t.left_of x
    if l = .null then pure x else minimum n t l

/-- The loop `while (x->_M_right != 0) x = x->_M_right;` (`_S_maximum`). -/
def maximum : Nat → rb_tree K → node_ptr → Option node_ptr
  | 0, _, _ => none
  | n + 1, t, x => do
    let r ← t.right_of x
    if r = .null then pure x else maximum n t r

/-- The loop of `_Rb_tree_increment` that climbs while `x` is a right child. -/
def increment_climb : Nat → rb_tree K → node_ptr → node_ptr → Option node_ptr
  | 0, _, _, _ => none
  | n + 1, t, x, y => do
    let yr ← t.right_of y
    if x = yr then do
      let yp ← t.parent_of y
      increment_climb n t y yp
    else do
      let xr ← t.right_of x
      if xr ≠ y then pure y else pure x

/-- The function `_Rb_tree_increment` (`++it`). -/
def increment (t : rb_tree K) (x : node_ptr) : Option node_ptr := do
  let r ← t.right_of x
  if r ≠ .null then minimum t.fuel t r
  else do
    let y ← t.parent_of x
    increment_climb t.fuel t x y

/-- The loop of `_Rb_tree_decrement` that climbs while `x` is a left child. -/
def decrement_climb : Nat → rb_tree K → node_ptr → node_ptr → Option node_ptr
  | 0, _, _, _ => none
  | n + 1, t, x, y => do
    let yl ← t.left_of y
    if x = yl then do
      let yp ← t.parent_of y
      decrement_climb n t y yp
    else pure y

/-- The function `_Rb_tree_decrement` (`--it`). -/
def decrement (t : rb_tree K) (x : node_ptr) : Option node_ptr := do
  let red ← t.is_red x
  let at_header ← if red then do
      let p ← t.parent_of x
      let pp ← t.parent_of p
      pure (decide (pp = x))
    else pure false
  if at_header then t.right_of x
  else do
    let l ← t.left_of x
    if l ≠ .null then maximum t.fuel t l
    else do
      let y ← t.parent_of x
      decrement_climb t.fuel t x y

/-- The function `_Rb_tree_rotate_left` of `tree.cc`. -/
def rotate_left (t : rb_tree K) (x : node_ptr) : Option (rb_tree K) := do
  let y ← t.right_of x
  let yl ← t.left_of y
  let t ← t.set_right x yl
  let t ← if yl ≠ .null then t.set_parent yl x else pure t
  let xp ← t.parent_of x
  let t ← t.set_parent y xp
  let t ← if x = t.root then pure { t with root := y }
    else do
      let xpl ← t.left_of xp
      if x = xpl then t.set_left xp y else t.set_right xp y
  let t ← t.set_left y x
  t.set_parent x y

/-- The function `_Rb_tree_rotate_right` of `tree.cc`. -/
def rotate_right (t : rb_tree K) (x : node_ptr) : Option (rb_tree K) := do
  let y ← t.left_of x
  let yr ← t.right_of y
  let t ← t.set_left x yr
  let t ← if yr ≠ .null then t.set_parent yr x else pure t
  let xp ← t.parent_of x
  let t ← t.set_parent y xp
  let t ← if x = t.root then pure { t with root := y }
    else do
      let xpr ← t.right_of xp
      if x = xpr then t.set_right xp y else t.set_left xp y
  let t ← t.set_right y x
  t.set_parent x y

/-- The rebalancing loop of `_Rb_tree_insert_and_rebalance`:
`while (x != root && x->_M_parent->_M_color == _S_red)`. -/
def insert_rebalance : Nat → rb_tree K → node_ptr → Option (rb_tree K)
  | 0, _, _ => none
  | n + 1, t, x =>
    if x = t.root then pure t
    else do
      let xp ← t.parent_of x
      let xp_red ← t.is_red xp
      if !xp_red then pure t
      else do
        let xpp ← t.parent_of xp
        let xppl ← t.left_of xpp
        if xp = xppl then do
          let y ← t.right_of xpp
          let y_red ← if y = .null then pure false else t.is_red y
          if y_red then do
            let t ← t.set_red xp false
            let t ← t.set_red y false
            let t ← t.set_red xpp true
            insert_rebalance n t xpp
          else do
            let xpr ← t.right_of xp
            let (t, x) ← if x = xpr then do
                let t ← t.rotate_left xp
                pure (t, xp)
              else pure (t, x)
            let xp ← t.parent_of x
            let t ← t.set_red xp false
            let t ← t.set_red xpp true
            let t ← t.rotate_right xpp
            insert_rebalance n t x
        else do
          let y ← t.left_of xpp
          let y_red ← if y = .null then pure false else t.is_red y
          if y_red then do
            let t ← t.set_red xp false
            let t ← t.set_red y false
            let t ← t.set_red xpp true
            insert_rebalance n t xpp
          else do
            let xpl ← t.left_of xp
            let (t, x) ← if x = xpl then do
                let t ← t.rotate_right xp
                pure (t, xp)
              else pure (t, x)
            let xp ← t.parent_of x
            let t ← t.set_red xp false
            let t ← t.set_red xpp true
            let t ← t.rotate_left xpp
            insert_rebalance n t x

/-- The function `_Rb_tree_insert_and_rebalance` of `tree.cc` for a new node with key `key`
and a value-initialised count, followed by `++_M_node_count`. The result is the tree and
the new node. -/
def insert_and_rebalance (insert_left : Bool) (key : K) (p : node_ptr) (t : rb_tree K) :
    Option (rb_tree K × node_ptr) := do
  let x := node_ptr.node t.nodes.length
  let t : rb_tree K := { t with nodes := t.nodes ++
    [some { red := true, parent := p, left := .null, right := .null, key := key,
            count := 0 }] }
  let t ← if insert_left then do
      let t ← t.set_left p x
      if p = .header then pure { t with root := x, rightmost := x }
      else if p = t.leftmost then pure { t with leftmost := x }
      else pure t
    else do
      let t ← t.set_right p x
      if p = t.rightmost then pure { t with rightmost := x } else pure t
  let t ← insert_rebalance t.fuel t x
  let t ← t.set_red t.root false
  pure ({ t with node_count := t.node_count + 1 }, x)

/-- The loop of `_M_lower_bound`. -/
def lower_bound_loop (lt : K → K → Bool) (k : K) :
    Nat → rb_tree K → node_ptr → node_ptr → Option node_ptr
  | 0, _, _, _ => none
  | n + 1, t, x, y =>
    if x = .null then pure y
    else do
      let kx ← t.key_of x
      if !lt kx k then do
        let l ← t.left_of x
        lower_bound_loop lt k n t l x
      else do
        let r ← t.right_of x
        lower_bound_loop lt k n t r y

/-- The member `lower_bound`: `_M_lower_bound(_M_begin(), _M_end(), k)`. -/
def lower_bound (lt : K → K → Bool) (t : rb_tree K) (k : K) : Option node_ptr :=
  lower_bound_loop lt k t.fuel t t.root .header

/-- The member `find`. The result `header` is `end()`. -/
def find (lt : K → K → Bool) (t : rb_tree K) (k : K) : Option node_ptr := do
  let j ← t.lower_bound lt k
  if j = .header then pure .header
  else do
    let kj ← t.key_of j
    if lt k kj then pure .header else pure j

/-- The loop of `_M_get_insert_unique_pos`; the result is `y` and `comp`. -/
def unique_pos_loop (lt : K → K → Bool) (k : K) :
    Nat → rb_tree K → node_ptr → node_ptr → Bool → Option (node_ptr × Bool)
  | 0, _, _, _, _ => none
  | n + 1, t, x, y, comp =>
    if x = .null then pure (y, comp)
    else do
      let kx ← t.key_of x
      let c := lt k kx
      let next ← if c then t.left_of x else t.right_of x
      unique_pos_loop lt k n t next x c

/-- The member `_M_get_insert_unique_pos`. -/
def get_insert_unique_pos (lt : K → K → Bool) (t : rb_tree K) (k : K) :
    Option (node_ptr × node_ptr) := do
  let (y, comp) ← unique_pos_loop lt k t.fuel t t.root .header true
  if comp && decide (y = t.leftmost) then pure (.null, y)
  else do
    let j ← if comp then t.decrement y else pure y
    let kj ← t.key_of j
    if lt kj k then pure (.null, y) else pure (j, .null)

/-- The member `_M_get_insert_hint_unique_pos`. -/
def get_insert_hint_unique_pos (lt : K → K → Bool) (t : rb_tree K) (pos : node_ptr)
    (k : K) : Option (node_ptr × node_ptr) :=
  if pos = .header then
    if t.node_count > 0 then do
      let kr ← t.key_of t.rightmost
      if lt kr k then pure (.null, t.rightmost) else t.get_insert_unique_pos lt k
    else t.get_insert_unique_pos lt k
  else do
    let kp ← t.key_of pos
    if lt k kp then
      if pos = t.leftmost then pure (t.leftmost, t.leftmost)
      else do
        let before ← t.decrement pos
        let kb ← t.key_of before
        if lt kb k then do
          let br ← t.right_of before
          if br = .null then pure (.null, before) else pure (pos, pos)
        else t.get_insert_unique_pos lt k
    else if lt kp k then
      if pos = t.rightmost then pure (.null, t.rightmost)
      else do
        let after ← t.increment pos
        let ka ← t.key_of after
        if lt k ka then do
          let pr ← t.right_of pos
          if pr = .null then pure (.null, pos) else pure (after, after)
        else t.get_insert_unique_pos lt k
    else pure (pos, .null)

/-- The member `_M_insert_node` for a new node with key `k`. -/
def insert_node (lt : K → K → Bool) (t : rb_tree K) (x p : node_ptr) (k : K) :
    Option (rb_tree K × node_ptr) := do
  let insert_left ← if x ≠ .null || p = .header then pure true
    else do
      let kp ← t.key_of p
      pure (lt k kp)
  t.insert_and_rebalance insert_left k p

/-- The member `_M_emplace_hint_unique` for the key `k` and a value-initialised count. -/
def emplace_hint_unique (lt : K → K → Bool) (t : rb_tree K) (pos : node_ptr) (k : K) :
    Option (rb_tree K × node_ptr) := do
  let res ← t.get_insert_hint_unique_pos lt pos k
  if res.2 ≠ .null then t.insert_node lt res.1 res.2 k
  else pure (t, res.1)

/-- The member `std::map::operator[]`: the tree after the call and the node whose mapped
value the returned reference names. -/
def subscript (lt : K → K → Bool) (t : rb_tree K) (k : K) :
    Option (rb_tree K × node_ptr) := do
  let i ← t.lower_bound lt k
  let insert ← if i = .header then pure true
    else do
      let ki ← t.key_of i
      pure (lt k ki)
  if insert then t.emplace_hint_unique lt i k else pure (t, i)

/-- The loop of a range-based `for` over the map from the iterator `it`: the keys visited,
in order. -/
def keys_from : Nat → rb_tree K → node_ptr → Option (List K)
  | 0, _, _ => none
  | n + 1, t, it =>
    if it = .header then pure []
    else do
      let k ← t.key_of it
      let next ← t.increment it
      let rest ← keys_from n t next
      pure (k :: rest)

/-- The keys that iteration from `begin()` to `end()` visits, in order. -/
def keys (t : rb_tree K) : Option (List K) :=
  keys_from t.fuel t t.leftmost

/-- Whether `x` is null or black: `x == 0 || x->_M_color == _S_black`. -/
def null_or_black (t : rb_tree K) (x : node_ptr) : Option Bool :=
  if x = .null then pure true
  else do
    let r ← t.is_red x
    pure (!r)

/-- The test `(a == 0 || a->_M_color == _S_black) && (b == 0 || b->_M_color == _S_black)`
on two children of the sibling, the second read only when the first is null or black. -/
def both_black (t : rb_tree K) (a b : node_ptr) : Option Bool := do
  let a_black ← t.null_or_black a
  if a_black then t.null_or_black b else pure false

/-- In the loop of `_Rb_tree_rebalance_for_erase`, `x` a left child: the sibling
`w = x_parent->_M_right`, after the rotation that makes it black when it is red. -/
def erase_sibling_right (t : rb_tree K) (x_parent : node_ptr) :
    Option (rb_tree K × node_ptr) := do
  let w ← t.right_of x_parent
  let w_red ← t.is_red w
  if w_red then do
    let t ← t.set_red w false
    let t ← t.set_red x_parent true
    let t ← t.rotate_left x_parent
    let w ← t.right_of x_parent
    pure (t, w)
  else pure (t, w)

/-- In the loop of `_Rb_tree_rebalance_for_erase`, `x` a right child: the sibling
`w = x_parent->_M_left`, after the rotation that makes it black when it is red. -/
def erase_sibling_left (t : rb_tree K) (x_parent : node_ptr) :
    Option (rb_tree K × node_ptr) := do
  let w ← t.left_of x_parent
  let w_red ← t.is_red w
  if w_red then do
    let t ← t.set_red w false
    let t ← t.set_red x_parent true
    let t ← t.rotate_right x_parent
    let w ← t.left_of x_parent
    pure (t, w)
  else pure (t, w)

/-- In the loop of `_Rb_tree_rebalance_for_erase`, `x` a left child and the sibling `w`
with a red child: the statements before `break`, first part (the right child of `w` is
made red when it is null or black). -/
def erase_far_right (t : rb_tree K) (x_parent w : node_ptr) :
    Option (rb_tree K × node_ptr) := do
  let wr ← t.right_of w
  let wr_black ← t.null_or_black wr
  if wr_black then do
    let wl ← t.left_of w
    let t ← t.set_red wl false
    let t ← t.set_red w true
    let t ← t.rotate_right w
    let w ← t.right_of x_parent
    pure (t, w)
  else pure (t, w)

/-- The mirror image of `erase_far_right`, for `x` a right child. -/
def erase_far_left (t : rb_tree K) (x_parent w : node_ptr) :
    Option (rb_tree K × node_ptr) := do
  let wl ← t.left_of w
  let wl_black ← t.null_or_black wl
  if wl_black then do
    let wr ← t.right_of w
    let t ← t.set_red wr false
    let t ← t.set_red w true
    let t ← t.rotate_left w
    let w ← t.left_of x_parent
    pure (t, w)
  else pure (t, w)

/-- In the loop of `_Rb_tree_rebalance_for_erase`, `x` a left child: the statements that
end with `break`. -/
def erase_break_left (t : rb_tree K) (x_parent w : node_ptr) : Option (rb_tree K) := do
  let (t, w) ← t.erase_far_right x_parent w
  let xp_red ← t.is_red x_parent
  let t ← t.set_red w xp_red
  let t ← t.set_red x_parent false
  let wr ← t.right_of w
  let t ← if wr ≠ .null then t.set_red wr false else pure t
  t.rotate_left x_parent

/-- In the loop of `_Rb_tree_rebalance_for_erase`, `x` a right child: the statements that
end with `break`. -/
def erase_break_right (t : rb_tree K) (x_parent w : node_ptr) : Option (rb_tree K) := do
  let (t, w) ← t.erase_far_left x_parent w
  let xp_red ← t.is_red x_parent
  let t ← t.set_red w xp_red
  let t ← t.set_red x_parent false
  let wl ← t.left_of w
  let t ← if wl ≠ .null then t.set_red wl false else pure t
  t.rotate_right x_parent

/-- One iteration of the loop of `_Rb_tree_rebalance_for_erase` with `x` a left child. The
result is the tree and, when the loop goes on, the next `x` and `x_parent`. -/
def erase_iteration_left (t : rb_tree K) (x_parent : node_ptr) :
    Option (rb_tree K × Option (node_ptr × node_ptr)) := do
  let (t, w) ← t.erase_sibling_right x_parent
  let wl ← t.left_of w
  let wr ← t.right_of w
  let both ← t.both_black wl wr
  if both then do
    let t ← t.set_red w true
    let xpp ← t.parent_of x_parent
    pure (t, some (x_parent, xpp))
  else do
    let t ← t.erase_break_left x_parent w
    pure (t, none)

/-- One iteration of the loop of `_Rb_tree_rebalance_for_erase` with `x` a right child. -/
def erase_iteration_right (t : rb_tree K) (x_parent : node_ptr) :
    Option (rb_tree K × Option (node_ptr × node_ptr)) := do
  let (t, w) ← t.erase_sibling_left x_parent
  let wr ← t.right_of w
  let wl ← t.left_of w
  let both ← t.both_black wr wl
  if both then do
    let t ← t.set_red w true
    let xpp ← t.parent_of x_parent
    pure (t, some (x_parent, xpp))
  else do
    let t ← t.erase_break_right x_parent w
    pure (t, none)

/-- The rebalancing loop of `_Rb_tree_rebalance_for_erase`:
`while (x != root && (x == 0 || x->_M_color == _S_black))`. The result is the tree and `x`
at the end of the loop. -/
def erase_rebalance : Nat → rb_tree K → node_ptr → node_ptr → Option (rb_tree K × node_ptr)
  | 0, _, _, _ => none
  | n + 1, t, x, x_parent => do
    let black ← t.null_or_black x
    if x = t.root || !black then pure (t, x)
    else do
      let xpl ← t.left_of x_parent
      let step ← if x = xpl then t.erase_iteration_left x_parent
        else t.erase_iteration_right x_parent
      match step with
      | (t1, some (x1, x_parent1)) => erase_rebalance n t1 x1 x_parent1
      | (t1, none) => pure (t1, x)

/-- In `_Rb_tree_rebalance_for_erase` with `y != z`: the statements that take the successor
`y` out of its place when it is not the right child of `z`; the result is the tree and
`x_parent`. -/
def erase_detach_successor (t : rb_tree K) (z y x : node_ptr) :
    Option (rb_tree K × node_ptr) := do
  let zr ← t.right_of z
  if y ≠ zr then do
    let x_parent ← t.parent_of y
    let t ← if x ≠ .null then t.set_parent x x_parent else pure t
    let yp ← t.parent_of y
    let t ← t.set_left yp x
    let zr ← t.right_of z
    let t ← t.set_right y zr
    let zr ← t.right_of z
    let t ← t.set_parent zr y
    pure (t, x_parent)
  else pure (t, y)

/-- In `_Rb_tree_rebalance_for_erase`: the statements that put `y` where `z` was under the
parent of `z` (`if (root == z) ... else if (z->_M_parent->_M_left == z) ... else ...`). -/
def erase_replace_child (t : rb_tree K) (z y : node_ptr) : Option (rb_tree K) :=
  if t.root = z then pure { t with root := y }
  else do
    let zp ← t.parent_of z
    let zpl ← t.left_of zp
    if zpl = z then t.set_left zp y else t.set_right zp y

/-- The part of `_Rb_tree_rebalance_for_erase` that unlinks `z` when its successor `y`
takes its place (`y != z`); the result is the tree and `x_parent`. -/
def erase_relink (t : rb_tree K) (z y x : node_ptr) : Option (rb_tree K × node_ptr) := do
  let zl ← t.left_of z
  let t ← t.set_parent zl y
  let zl ← t.left_of z
  let t ← t.set_left y zl
  let (t, x_parent) ← t.erase_detach_successor z y x
  let t ← t.erase_replace_child z y
  let zp ← t.parent_of z
  let t ← t.set_parent y zp
  let y_red ← t.is_red y
  let z_red ← t.is_red z
  let t ← t.set_red y z_red
  let t ← t.set_red z y_red
  pure (t, x_parent)

/-- The part of `_Rb_tree_rebalance_for_erase` that unlinks `z` when it has at most one
child `x` (`y == z`); the result is the tree and `x_parent`. -/
def erase_unlink (t : rb_tree K) (z x : node_ptr) : Option (rb_tree K × node_ptr) := do
  let x_parent ← t.parent_of z
  let t ← if x ≠ .null then do
      let zp ← t.parent_of z
      t.set_parent x zp
    else pure t
  let t ← if t.root = z then pure { t with root := x }
    else do
      let zp ← t.parent_of z
      let zpl ← t.left_of zp
      if zpl = z then t.set_left zp x else t.set_right zp x
  let t ← if t.leftmost = z then do
      let zr ← t.right_of z
      if zr = .null then do
        let zp ← t.parent_of z
        pure { t with leftmost := zp }
      else do
        let m ← minimum t.fuel t x
        pure { t with leftmost := m }
    else pure t
  let t ← if t.rightmost = z then do
      let zl ← t.left_of z
      if zl = .null then do
        let zp ← t.parent_of z
        pure { t with rightmost := zp }
      else do
        let m ← maximum t.fuel t x
        pure { t with rightmost := m }
    else pure t
  pure (t, x_parent)

/-- The function `_Rb_tree_rebalance_for_erase` of `tree.cc`. -/
def rebalance_for_erase (t : rb_tree K) (z : node_ptr) : Option (rb_tree K) := do
  let zl ← t.left_of z
  let zr ← t.right_of z
  let (y, x) ← if zl = .null then pure (z, zr)
    else if zr = .null then pure (z, zl)
    else do
      let y ← minimum t.fuel t zr
      let x ← t.right_of y
      pure (y, x)
  let (t, x_parent) ← if y ≠ z then t.erase_relink z y x else t.erase_unlink z x
  let removed_red ← t.is_red z
  if removed_red then pure t
  else do
    let (t, x) ← erase_rebalance t.fuel t x x_parent
    if x ≠ .null then t.set_red x false else pure t

/-- Destroys a node (`_M_drop_node`): what is read from it afterwards is not determined. -/
def drop_node (t : rb_tree K) : node_ptr → Option (rb_tree K)
  | .node i =>
    match (t.nodes[i]?).join with
    | some _ => some { t with nodes := t.nodes.set i none }
    | none => none
  | _ => none

/-- The member `std::map::erase(iterator)`: `_M_erase_aux`. -/
def erase (t : rb_tree K) (position : node_ptr) : Option (rb_tree K) := do
  let t ← t.rebalance_for_erase position
  let t ← t.drop_node position
  pure { t with node_count := t.node_count - 1 }

end rb_tree

section manager

variable {K σ : Type}

/-- The class `base_route_manager` with the map of libstdc++ as its data member. -/
structure base_route_manager (K σ : Type) where
  m_routing_table : rb_tree K
  derived : σ
  calls : List (backend_call K)

/-- The defaulted constructor: an empty routing table. -/
def base_route_manager.fresh (d : σ) : base_route_manager K σ :=
  { m_routing_table := rb_tree.empty, derived := d, calls := [] }

/-- The member `has_route`: the value of the expression its body returns,
`m_routing_table.find(route) != m_routing_table.end()`. -/
def has_route (lt : K → K → Bool) (self : base_route_manager K σ) (route : K) :
    Option Bool := do
  let position ← self.m_routing_table.find lt route
  pure (decide (position ≠ .header))

/-- The member `add_route`. -/
def add_route (lt : K → K → Bool) (B : RouteManagerType K σ)
    (self : base_route_manager K σ) (route : K) :
    Option (Except system_error Bool × base_route_manager K σ) := do
  let (inserted, position) ← self.m_routing_table.subscript lt route
  let old ← inserted.count_of position
  let table ← inserted.set_count position ((old + 1) % unsigned_int_modulus)
  if old = 0 then
    match B.register_route self.derived route with
    | (d, none) =>
      pure (.ok true, { m_routing_table := table, derived := d,
                        calls := self.calls ++ [backend_call.register_route route] })
    | (d, some e) =>
      pure (.error e, { m_routing_table := table, derived := d,
                        calls := self.calls ++ [backend_call.register_route route] })
  else
    pure (.ok false, { m_routing_table := table, derived := self.derived,
                       calls := self.calls })

/-- The member `remove_route`. -/
def remove_route (lt : K → K → Bool) (B : RouteManagerType K σ)
    (self : base_route_manager K σ) (route : K) :
    Option (Except system_error Bool × base_route_manager K σ) := do
  let route_position ← self.m_routing_table.find lt route
  if route_position ≠ .header then do
    let count ← self.m_routing_table.count_of route_position
    if count = 1 then
      match B.unregister_route self.derived route with
      | (d, none) => do
        let table ← self.m_routing_table.erase route_position
        pure (.ok true, { m_routing_table := table, derived := d,
                          calls := self.calls ++ [backend_call.unregister_route route] })
      | (d, some e) =>
        pure (.error e, { m_routing_table := self.m_routing_table, derived := d,
                          calls := self.calls ++ [backend_call.unregister_route route] })
    else if count > 1 then do
      let table ← self.m_routing_table.set_count route_position (count - 1)
      pure (.ok false, { m_routing_table := table, derived := self.derived,
                         calls := self.calls })
    else pure (.ok false, self)
  else pure (.ok false, self)

/-- The loop of the destructor from the iterator `it`; each iteration calls
`unregister_route(route.first)` inside `try` with an empty handler for `system_error`. -/
def destructor_loop (B : RouteManagerType K σ) (table : rb_tree K) :
    Nat → node_ptr → σ → List (backend_call K) →
      Option (Except system_error (σ × List (backend_call K)))
  | 0, _, _, _ => none
  | n + 1, it, d, calls =>
    if it = .header then pure (.ok (d, calls))
    else do
      let key ← table.key_of it
      let next ← table.increment it
      match B.unregister_route d key with
      | (d1, none) =>
        destructor_loop B table n next d1 (calls ++ [backend_call.unregister_route key])
      | (d1, some _) =>
        destructor_loop B table n next d1 (calls ++ [backend_call.unregister_route key])

/-- The destructor `~base_route_manager`. -/
def destructor (B : RouteManagerType K σ) (self : base_route_manager K σ) :
    Option (Except system_error (σ × List (backend_call K))) :=
  destructor_loop B self.m_routing_table self.m_routing_table.fuel
    self.m_routing_table.leftmost self.derived self.calls

/-- A derived class that records the calls it receives and follows a script: each call
takes the next outcome of the script (`some e` to throw `e`, `none` to return) and returns
once the script is used up. -/
def recording_backend (K : Type) :
    RouteManagerType K (List (backend_call K) × List (Option system_error)) :=
  { register_route := fun d route =>
      ((d.1 ++ [backend_call.register_route route], d.2.tail), d.2.head?.join),
    unregister_route := fun d route =>
      ((d.1 ++ [backend_call.unregister_route route], d.2.tail), d.2.head?.join) }

/-- The outcomes of a sequence of client calls, first call first, and the manager after
them. -/
def run (lt : K → K → Bool) (B : RouteManagerType K σ) :
    base_route_manager K σ → List (client_call K) →
      Option (List (Except system_error Bool) × base_route_manager K σ)
  | self, [] => pure ([], self)
  | self, .add_route route :: rest => do
    let (outcome, next) ← add_route lt B self route
    let (outcomes, last) ← run lt B next rest
    pure (outcome :: outcomes, last)
  | self, .remove_route route :: rest => do
    let (outcome, next) ← remove_route lt B self route
    let (outcomes, last) ← run lt B next rest
    pure (outcome :: outcomes, last)

end manager

end libstdcxx

/-- The entry with interface `interface`, network `network` and no gateway, with natural
numbers for the interface and the network: a value of the header's own route type, compared
by its `operator<`. -/
def plain_route (interface network : Nat) : base_routing_table_entry Nat Nat Nat :=
  { interface := interface, network := network, gateway := none }

/-- A sequence of client calls on a freshly constructed manager of the header's own route
type: the map of libstdc++ compares entries by the `operator<` of the source, and the
derived class records its calls and follows `script`. The result is the outcomes of the
calls and the manager after them. -/
def replay (script : List (Option system_error))
    (ops : List (client_call (base_routing_table_entry Nat Nat Nat))) :
    Option (List (Except system_error Bool) ×
      libstdcxx.base_route_manager (base_routing_table_entry Nat Nat Nat)
        (List (backend_call (base_routing_table_entry Nat Nat Nat)) ×
          List (Option system_error))) :=
  libstdcxx.run base_routing_table_entry.operator_less (libstdcxx.recording_backend _)
    (libstdcxx.base_route_manager.fresh ([], script)) ops

/-- The value of the `has_route` expression for `route` after a replay. -/
def replay_has_route (script : List (Option system_error))
    (ops : List (client_call (base_routing_table_entry Nat Nat Nat)))
    (route : base_routing_table_entry Nat Nat Nat) : Option Bool :=
  (replay script ops).bind
    (fun r => libstdcxx.has_route base_routing_table_entry.operator_less r.2 route)

/-- The calls that the derived class has received after a replay, in call order. -/
def replay_received (script : List (Option system_error))
    (ops : List (client_call (base_routing_table_entry Nat Nat Nat))) :
    Option (List (backend_call (base_routing_table_entry Nat Nat Nat))) :=
  (replay script ops).map (fun r => r.2.derived.1)

/-- The keys that iteration over the map visits after a replay, in order. -/
def replay_keys (script : List (Option system_error))
    (ops : List (client_call (base_routing_table_entry Nat Nat Nat))) :
    Option (List (base_routing_table_entry Nat Nat Nat)) :=
  (replay script ops).bind (fun r => r.2.m_routing_table.keys)

/-- The keys and counts of the nodes of the map after a replay, in order of creation
(`none` for a destroyed node). -/
def replay_nodes (script : List (Option system_error))
    (ops : List (client_call (base_routing_table_entry Nat Nat Nat))) :
    Option (List (Option (base_routing_table_entry Nat Nat Nat × Nat))) :=
  (replay script ops).map
    (fun r => r.2.m_routing_table.nodes.map (fun n => n.map (fun m => (m.key, m.count))))

/-- The calls that the derived class has received once the manager left by a replay has
been destroyed. -/
def replay_destructor_received (script : List (Option system_error))
    (ops : List (client_call (base_routing_table_entry Nat Nat Nat))) :
    Option (List (backend_call (base_routing_table_entry Nat Nat Nat))) :=
  ((replay script ops).bind (fun r => libstdcxx.destructor (libstdcxx.recording_backend _) r.2)
    ).bind (fun r => match r with
      | .ok final => some final.1.1
      | .error _ => none)

/-! ## The routing table -/

namespace routing_table_type

variable {R : Type} [LinearOrder R]

theorem find_subscript (route : R) (table : routing_table_type R) :
    find route (subscript route table) = some ((find route table).getD 0) := by
  induction table with
  | nil => simp [find, subscript]
  | cons hd tl ih =>
    obtain ⟨k, v⟩ := hd
    by_cases h1 : k < route
    · simp [find, subscript, h1, ih]
    · by_cases h2 : route < k <;> simp [find, subscript, h1, h2]

theorem subscript_of_find (route : R) (table : routing_table_type R) (count : Nat)
    (h : find route table = some count) : subscript route table = table := by
  induction table with
  | nil => simp [find] at h
  | cons hd tl ih =>
    obtain ⟨k, v⟩ := hd
    simp only [find] at h
    simp only [subscript]
    split_ifs with h1 h2
    · rw [if_pos h1] at h; rw [ih h]
    · rw [if_neg h1, if_pos h2] at h; cases h
    · rfl

theorem find_assign (route : R) (count : Nat) (table : routing_table_type R) :
    find route (assign route count table) = (find route table).map (fun _ => count) := by
  induction table with
  | nil => simp [find, assign]
  | cons hd tl ih =>
    obtain ⟨k, v⟩ := hd
    by_cases h1 : k < route
    · simp [find, assign, h1, ih]
    · by_cases h2 : route < k <;> simp [find, assign, h1, h2]

theorem length_subscript (route : R) (table : routing_table_type R)
    (h : find route table = none) : (subscript route table).length = table.length + 1 := by
  induction table with
  | nil => simp [subscript]
  | cons hd tl ih =>
    obtain ⟨k, v⟩ := hd
    simp only [find] at h
    simp only [subscript]
    split_ifs with h1 h2
    · rw [if_pos h1] at h; simp [ih h]
    · simp
    · rw [if_neg h1, if_neg h2] at h; cases h

theorem length_assign (route : R) (count : Nat) (table : routing_table_type R) :
    (assign route count table).length = table.length := by
  induction table with
  | nil => simp [assign]
  | cons hd tl ih =>
    obtain ⟨k, v⟩ := hd
    simp only [assign]
    split_ifs with h1 h2 <;> simp [ih]

theorem find_eq_none_of_forall_lt (route : R) (table : routing_table_type R)
    (h : ∀ e ∈ table, route < e.1) : find route table = none := by
  cases table with
  | nil => rfl
  | cons hd tl =>
    obtain ⟨k, v⟩ := hd
    have hk : route < k := h (k, v) (List.mem_cons_self _ _)
    simp [find, hk, lt_asymm hk]

theorem ordered_tail {hd : R × Nat} {tl : routing_table_type R} (h : ordered (hd :: tl)) :
    ordered tl :=
  (List.pairwise_cons.mp h).2

theorem find_erase (route : R) (table : routing_table_type R) (hord : ordered table) :
    find route (erase route table) = none := by
  induction table with
  | nil => rfl
  | cons hd tl ih =>
    obtain ⟨k, v⟩ := hd
    have hhead := (List.pairwise_cons.mp hord).1
    by_cases h1 : k < route
    · simp [find, erase, h1, ih (ordered_tail hord)]
    · by_cases h2 : route < k
      · simp [find, erase, h1, h2]
      · have hk : k = route := le_antisymm (not_lt.mp h2) (not_lt.mp h1)
        subst hk
        simp only [erase, if_neg h1]
        exact find_eq_none_of_forall_lt _ _ (fun e he => hhead e he)

theorem length_erase (route : R) (table : routing_table_type R) (count : Nat)
    (h : find route table = some count) :
    (erase route table).length + 1 = table.length := by
  induction table with
  | nil => simp [find] at h
  | cons hd tl ih =>
    obtain ⟨k, v⟩ := hd
    by_cases h1 : k < route
    · simp only [find, if_pos h1] at h
      simp [erase, h1, ih h]
    · by_cases h2 : route < k
      · simp [find, h1, h2] at h
      · simp [erase, h1, h2]

theorem mem_keys_of_find (route : R) (table : routing_table_type R) (count : Nat)
    (h : find route table = some count) : (route, count) ∈ table := by
  induction table with
  | nil => simp [find] at h
  | cons hd tl ih =>
    obtain ⟨k, v⟩ := hd
    by_cases h1 : k < route
    · simp only [find, if_pos h1] at h
      exact List.mem_cons_of_mem _ (ih h)
    · by_cases h2 : route < k
      · simp [find, h1, h2] at h
      · have hk : k = route := le_antisymm (not_lt.mp h2) (not_lt.mp h1)
        simp only [find, if_neg h1, if_neg h2, Option.some.injEq] at h
        subst hk; subst h
        exact List.mem_cons_self _ _

theorem find_of_mem (route : R) (count : Nat) (table : routing_table_type R)
    (hord : ordered table) (h : (route, count) ∈ table) : find route table = some count := by
  induction table with
  | nil => simp at h
  | cons hd tl ih =>
    obtain ⟨k, v⟩ := hd
    have hhead := (List.pairwise_cons.mp hord).1
    rcases List.mem_cons.mp h with heq | hmem
    · cases heq
      simp [find]
    · have hk : k < route := hhead _ hmem
      simp only [find, if_pos hk]
      exact ih (ordered_tail hord) hmem

theorem nodup_keys (table : routing_table_type R) (hord : ordered table) :
    (table.map Prod.fst).Nodup := by
  unfold ordered at hord
  rw [List.Nodup, List.pairwise_map]
  exact hord.imp (fun h => ne_of_lt h)

theorem mem_assign (route : R) (count : Nat) (table : routing_table_type R) (e : R × Nat)
    (h : e ∈ assign route count table) : e ∈ table ∨ e = (route, count) := by
  induction table with
  | nil => simp [assign] at h
  | cons hd tl ih =>
    obtain ⟨k, v⟩ := hd
    by_cases h1 : k < route
    · simp only [assign, if_pos h1, List.mem_cons] at h
      rcases h with h | h
      · exact Or.inl (h ▸ List.mem_cons_self _ _)
      · exact (ih h).imp (List.mem_cons_of_mem _) id
    · by_cases h2 : route < k
      · simp only [assign, if_neg h1, if_pos h2] at h
        exact Or.inl h
      · have hk : k = route := le_antisymm (not_lt.mp h2) (not_lt.mp h1)
        simp only [assign, if_neg h1, if_neg h2, List.mem_cons] at h
        rcases h with h | h
        · exact Or.inr (by rw [h, hk])
        · exact Or.inl (List.mem_cons_of_mem _ h)

theorem mem_assign_subscript (route : R) (count : Nat) (table : routing_table_type R)
    (e : R × Nat) (h : e ∈ assign route count (subscript route table)) :
    e ∈ table ∨ e = (route, count) := by
  induction table with
  | nil => simpa [assign, subscript] using h
  | cons hd tl ih =>
    obtain ⟨k, v⟩ := hd
    by_cases h1 : k < route
    · simp only [subscript, assign, if_pos h1, List.mem_cons] at h
      rcases h with h | h
      · exact Or.inl (h ▸ List.mem_cons_self _ _)
      · exact (ih h).imp (List.mem_cons_of_mem _) id
    · by_cases h2 : route < k
      · simp only [subscript, if_neg h1, if_pos h2, assign, lt_irrefl, if_false,
          List.mem_cons] at h
        rcases h with h | h
        · exact Or.inr h
        · exact Or.inl (List.mem_cons.mpr h)
      · simp only [subscript, if_neg h1, if_neg h2] at h
        exact mem_assign route count _ e h

theorem mem_erase (route : R) (table : routing_table_type R) (e : R × Nat)
    (h : e ∈ erase route table) : e ∈ table := by
  induction table with
  | nil => simp [erase] at h
  | cons hd tl ih =>
    obtain ⟨k, v⟩ := hd
    by_cases h1 : k < route
    · simp only [erase, if_pos h1, List.mem_cons] at h
      rcases h with h | h
      · exact h ▸ List.mem_cons_self _ _
      · exact List.mem_cons_of_mem _ (ih h)
    · by_cases h2 : route < k
      · simp only [erase, if_neg h1, if_pos h2] at h
        exact h
      · simp only [erase, if_neg h1, if_neg h2] at h
        exact List.mem_cons_of_mem _ h

theorem keys_assign (route : R) (count : Nat) (table : routing_table_type R) :
    (assign route count table).map Prod.fst = table.map Prod.fst := by
  induction table with
  | nil => rfl
  | cons hd tl ih =>
    obtain ⟨k, v⟩ := hd
    by_cases h1 : k < route
    · simp [assign, h1, ih]
    · by_cases h2 : route < k <;> simp [assign, h1, h2]

theorem ordered_iff_keys (table : routing_table_type R) :
    ordered table ↔ (table.map Prod.fst).Pairwise (· < ·) := by
  simp [ordered, List.pairwise_map]

theorem ordered_assign (route : R) (count : Nat) (table : routing_table_type R)
    (hord : ordered table) : ordered (assign route count table) := by
  rw [ordered_iff_keys, keys_assign]
  exact (ordered_iff_keys table).mp hord

theorem erase_sublist (route : R) (table : routing_table_type R) :
    (erase route table).Sublist table := by
  induction table with
  | nil => exact List.Sublist.refl _
  | cons hd tl ih =>
    obtain ⟨k, v⟩ := hd
    by_cases h1 : k < route
    · simp only [erase, if_pos h1]
      exact ih.cons₂ _
    · by_cases h2 : route < k
      · simp only [erase, if_neg h1, if_pos h2]
        exact List.Sublist.refl _
      · simp only [erase, if_neg h1, if_neg h2]
        exact List.sublist_cons_self _ _

theorem ordered_erase (route : R) (table : routing_table_type R) (hord : ordered table) :
    ordered (erase route table) :=
  List.Pairwise.sublist (erase_sublist route table) hord

theorem mem_subscript (route : R) (table : routing_table_type R) (e : R × Nat)
    (h : e ∈ subscript route table) : e ∈ table ∨ e = (route, 0) := by
  induction table with
  | nil => simpa [subscript] using h
  | cons hd tl ih =>
    obtain ⟨k, v⟩ := hd
    by_cases h1 : k < route
    · simp only [subscript, if_pos h1, List.mem_cons] at h
      rcases h with h | h
      · exact Or.inl (h ▸ List.mem_cons_self _ _)
      · exact (ih h).imp (List.mem_cons_of_mem _) id
    · by_cases h2 : route < k
      · simp only [subscript, if_neg h1, if_pos h2, List.mem_cons] at h
        rcases h with h | h
        · exact Or.inr h
        · exact Or.inl (List.mem_cons.mpr h)
      · simp only [subscript, if_neg h1, if_neg h2] at h
        exact Or.inl h

theorem ordered_subscript (route : R) (table : routing_table_type R)
    (hord : ordered table) : ordered (subscript route table) := by
  induction table with
  | nil => simp [subscript, ordered]
  | cons hd tl ih =>
    obtain ⟨k, v⟩ := hd
    have hhead := (List.pairwise_cons.mp hord).1
    by_cases h1 : k < route
    · simp only [subscript, if_pos h1]
      refine List.pairwise_cons.mpr ⟨?_, ih (ordered_tail hord)⟩
      intro e he
      rcases mem_subscript _ _ _ he with h | h
      · exact hhead e h
      · rw [h]; exact h1
    · by_cases h2 : route < k
      · simp only [subscript, if_neg h1, if_pos h2]
        refine List.pairwise_cons.mpr ⟨?_, hord⟩
        intro e he
        rcases List.mem_cons.mp he with h | h
        · rw [h]; exact h2
        · exact lt_trans h2 (hhead e h)
      · simp only [subscript, if_neg h1, if_neg h2]
        exact hord

end routing_table_type

/-! ## add_route and remove_route -/

section manager_theorems

variable {R σ : Type} [LinearOrder R]

open routing_table_type

theorem find_eq_none_of_has_route {self : base_route_manager R σ} {route : R}
    (h : has_route self route = false) : find route self.m_routing_table = none := by
  simpa [has_route] using h

theorem add_route_table (B : RouteManagerType R σ) (self : base_route_manager R σ)
    (route : R) :
    (add_route B self route).2.m_routing_table =
      assign route (((find route self.m_routing_table).getD 0 + 1) % unsigned_int_modulus)
        (subscript route self.m_routing_table) := by
  simp only [add_route, find_subscript, Option.getD_some]
  split
  · split <;> rfl
  · rfl

theorem add_route_eq_of_present (B : RouteManagerType R σ) (self : base_route_manager R σ)
    (route : R) (count : Nat) (hfind : find route self.m_routing_table = some count)
    (hne : count ≠ 0) :
    add_route B self route =
      (.ok false, { m_routing_table :=
                      assign route ((count + 1) % unsigned_int_modulus) self.m_routing_table,
                    derived := self.derived, calls := self.calls }) := by
  simp [add_route, find_subscript, hfind, hne, subscript_of_find route _ count hfind]

theorem find_add_route_of_absent (B : RouteManagerType R σ) (self : base_route_manager R σ)
    (route : R) (hfind : find route self.m_routing_table = none) :
    find route (add_route B self route).2.m_routing_table = some 1 := by
  rw [add_route_table, find_assign, find_subscript, hfind]; rfl

theorem add_route_twice (B : RouteManagerType R σ) (self : base_route_manager R σ)
    (route : R) (hfind : find route self.m_routing_table = none) :
    add_route B (add_route B self route).2 route =
      (.ok false, { m_routing_table :=
                      assign route 2 (add_route B self route).2.m_routing_table,
                    derived := (add_route B self route).2.derived,
                    calls := (add_route B self route).2.calls }) :=
  add_route_eq_of_present B _ route 1 (find_add_route_of_absent B self route hfind)
    (by decide)

/-- With keys in a linear order, which is what `std::map` requires of its comparator: when
`route` is absent from the table and `register_route` returns, `add_route`
returns `true`, the table gains exactly one entry and holds `route` with count 1, the only
call made into the derived class is one `register_route(route)`, and `has_route(route)` is
true afterwards. -/
theorem add_route_absent (B : RouteManagerType R σ) (self : base_route_manager R σ)
    (route : R) (d : σ) (habsent : has_route self route = false)
    (hreg : B.register_route self.derived route = (d, none)) :
    (add_route B self route).1 = .ok true ∧
    find route (add_route B self route).2.m_routing_table = some 1 ∧
    (add_route B self route).2.m_routing_table.length = self.m_routing_table.length + 1 ∧
    (add_route B self route).2.calls = self.calls ++ [backend_call.register_route route] ∧
    has_route (add_route B self route).2 route = true := by
  have hfind := find_eq_none_of_has_route habsent
  simp [add_route, has_route, find_subscript, find_assign, length_assign,
    length_subscript _ _ hfind, hfind, hreg, unsigned_int_modulus]

/-- The lemma `add_route_absent` at a fresh manager: route `7`, a derived class that always
returns. -/
theorem add_route_absent_witness :
    has_route (base_route_manager.fresh () : base_route_manager Nat Unit) 7 = false ∧
    (add_route (succeeding_backend Nat) (base_route_manager.fresh ()) 7).1 = .ok true ∧
    has_route (add_route (succeeding_backend Nat) (base_route_manager.fresh ()) 7).2 7 = true :=
  have h := add_route_absent (succeeding_backend Nat) (base_route_manager.fresh ()) 7 ()
    (by decide) rfl
  ⟨by decide, h.1, h.2.2.2.2⟩

theorem run_append (B : RouteManagerType R σ) (self : base_route_manager R σ)
    (xs ys : List (client_call R)) : run B self (xs ++ ys) = run B (run B self xs) ys := by
  simp [run, List.foldl_append]

/-- From an empty table, `n` calls of `add_route(route)` with `n > 0` leave the single entry
of `route` with count `n` modulo `2 ^ 32`. -/
theorem run_add_route_fresh (B : RouteManagerType R σ) (d : σ) (route : R) (n : Nat)
    (hn : 0 < n) :
    (run B (base_route_manager.fresh d) (List.replicate n (client_call.add_route route))
      ).m_routing_table = [(route, n % unsigned_int_modulus)] := by
  induction n with
  | zero => omega
  | succ m ih =>
    rw [List.replicate_succ', run_append]
    rcases Nat.eq_zero_or_pos m with h0 | hpos
    · subst h0
      rw [List.replicate_zero]
      show (add_route B (base_route_manager.fresh d) route).2.m_routing_table = _
      rw [add_route_table]
      simp [base_route_manager.fresh, find, subscript, assign]
    · have hm := ih hpos
      show (add_route B _ route).2.m_routing_table = _
      rw [add_route_table, hm]
      simp [find, subscript, assign, Nat.add_mod]

/-- C2, counterexample: after `2 ^ 32` calls of `add_route(7)` on a fresh manager the entry
of route `7` is in the table with count `0`; `7` is present, yet the next `add_route(7)`
returns `true` and calls `register_route(7)`. -/
theorem add_route_present_counterexample :
    (run (succeeding_backend Nat) (base_route_manager.fresh ())
        (List.replicate (2 ^ 32) (client_call.add_route 7))).m_routing_table = [(7, 0)] ∧
    has_route (run (succeeding_backend Nat) (base_route_manager.fresh ())
        (List.replicate (2 ^ 32) (client_call.add_route 7))) 7 = true ∧
    (add_route (succeeding_backend Nat) (run (succeeding_backend Nat)
        (base_route_manager.fresh ())
        (List.replicate (2 ^ 32) (client_call.add_route 7))) 7).1 = .ok true ∧
    (add_route (succeeding_backend Nat) (run (succeeding_backend Nat)
        (base_route_manager.fresh ())
        (List.replicate (2 ^ 32) (client_call.add_route 7))) 7).1 ≠ .ok false ∧
    (add_route (succeeding_backend Nat) (run (succeeding_backend Nat)
        (base_route_manager.fresh ())
        (List.replicate (2 ^ 32) (client_call.add_route 7))) 7).2.calls =
      (run (succeeding_backend Nat) (base_route_manager.fresh ())
        (List.replicate (2 ^ 32) (client_call.add_route 7))).calls ++
        [backend_call.register_route 7] := by
  have hs := run_add_route_fresh (succeeding_backend Nat) () (7 : Nat) (2 ^ 32)
    (by norm_num)
  have hmod : 2 ^ 32 % unsigned_int_modulus = 0 := Nat.mod_self _
  rw [hmod] at hs
  generalize run (succeeding_backend Nat) (base_route_manager.fresh ())
    (List.replicate (2 ^ 32) (client_call.add_route 7)) = s at hs ⊢
  obtain ⟨table, d, calls⟩ := s
  simp only at hs
  subst hs
  refine ⟨rfl, rfl, rfl, ?_, rfl⟩
  show (Except.ok true : Except system_error Bool) ≠ Except.ok false
  simp

/-- C2 (amended): with keys in a linear order (a route type whose `operator<` is a strict
total order, as `std::map` requires of its comparator), when `route` is present with a
count `count ≥ 1`, `add_route` returns
`false`, makes no call into the derived class (its state and the call log are unchanged),
keeps the number of entries and stores `count + 1` modulo `2 ^ 32` for `route`, which is
`count + 1` whenever `count < 2 ^ 32 - 1`; in particular the second of two `add_route`
calls in a row on a route that was absent returns `false` and makes no call. -/
theorem add_route_present (B : RouteManagerType R σ) (self : base_route_manager R σ)
    (route : R) (count : Nat) (hfind : find route self.m_routing_table = some count)
    (hcount : 1 ≤ count) :
    (add_route B self route).1 = .ok false ∧
    (add_route B self route).2.calls = self.calls ∧
    (add_route B self route).2.derived = self.derived ∧
    (add_route B self route).2.m_routing_table.length = self.m_routing_table.length ∧
    find route (add_route B self route).2.m_routing_table =
      some ((count + 1) % unsigned_int_modulus) ∧
    (count < 2 ^ 32 - 1 →
      find route (add_route B self route).2.m_routing_table = some (count + 1)) ∧
    (∀ first : base_route_manager R σ, has_route first route = false →
      (add_route B (add_route B first route).2 route).1 = .ok false ∧
      (add_route B (add_route B first route).2 route).2.calls =
        (add_route B first route).2.calls ∧
      (add_route B (add_route B first route).2 route).2.derived =
        (add_route B first route).2.derived) := by
  have heq := add_route_eq_of_present B self route count hfind (by omega)
  have hfind' : find route (add_route B self route).2.m_routing_table =
      some ((count + 1) % unsigned_int_modulus) := by
    rw [heq, find_assign, hfind]; rfl
  refine ⟨by rw [heq], by rw [heq], by rw [heq], by rw [heq, length_assign], hfind', ?_, ?_⟩
  · intro hlt
    rw [hfind', Nat.mod_eq_of_lt]
    simp only [unsigned_int_modulus]; omega
  · intro first habsent
    rw [add_route_twice B first route (find_eq_none_of_has_route habsent)]
    exact ⟨rfl, rfl, rfl⟩

/-- C2 at the second of two `add_route(7)` calls in a row on a fresh manager. -/
theorem add_route_present_witness :
    find 7 (add_route (succeeding_backend Nat) (base_route_manager.fresh ()) 7
      ).2.m_routing_table = some 1 ∧
    (add_route (succeeding_backend Nat)
      (add_route (succeeding_backend Nat) (base_route_manager.fresh ()) 7).2 7).1
        = .ok false ∧
    (add_route (succeeding_backend Nat)
      (add_route (succeeding_backend Nat) (base_route_manager.fresh ()) 7).2 7).2.calls
        = [backend_call.register_route 7] :=
  have h := add_route_present (succeeding_backend Nat)
    (add_route (succeeding_backend Nat) (base_route_manager.fresh ()) 7).2 7 1
    (by decide) (by decide)
  ⟨by decide, h.1, h.2.1⟩

/-- With keys in a linear order, which is what `std::map` requires of its comparator: when
`route` is present with count exactly 1 and `unregister_route` returns,
`remove_route` returns `true`, its only call into the derived class is one
`unregister_route(route)`, the entry is erased (the table is one entry shorter), and
`has_route(route)` is false afterwards. -/
theorem remove_route_last (B : RouteManagerType R σ) (self : base_route_manager R σ)
    (route : R) (d : σ) (hord : ordered self.m_routing_table)
    (hfind : find route self.m_routing_table = some 1)
    (hunreg : B.unregister_route self.derived route = (d, none)) :
    (remove_route B self route).1 = .ok true ∧
    (remove_route B self route).2.calls =
      self.calls ++ [backend_call.unregister_route route] ∧
    (remove_route B self route).2.m_routing_table = erase route self.m_routing_table ∧
    (remove_route B self route).2.m_routing_table.length + 1 = self.m_routing_table.length ∧
    find route (remove_route B self route).2.m_routing_table = none ∧
    has_route (remove_route B self route).2 route = false := by
  have hrem : remove_route B self route =
      (.ok true, { m_routing_table := erase route self.m_routing_table, derived := d,
                   calls := self.calls ++ [backend_call.unregister_route route] }) := by
    simp [remove_route, hfind, hunreg]
  rw [hrem]
  exact ⟨rfl, rfl, rfl, length_erase route _ 1 hfind, find_erase route _ hord,
    by simp [has_route, find_erase route _ hord]⟩

/-- The lemma `remove_route_last` at the table holding routes `3`, `7`, `9` with counts `2`,
`1`, `5`, removing `7`. -/
theorem remove_route_last_witness :
    ordered ([(3, 2), (7, 1), (9, 5)] : routing_table_type Nat) ∧
    (remove_route (succeeding_backend Nat)
      { m_routing_table := [(3, 2), (7, 1), (9, 5)], derived := (), calls := [] } 7).1
        = .ok true ∧
    (remove_route (succeeding_backend Nat)
      { m_routing_table := [(3, 2), (7, 1), (9, 5)], derived := (), calls := [] } 7
        ).2.m_routing_table = [(3, 2), (9, 5)] :=
  have hord : ordered ([(3, 2), (7, 1), (9, 5)] : routing_table_type Nat) := by
    simp [ordered]
  have h := remove_route_last (succeeding_backend Nat)
    { m_routing_table := [(3, 2), (7, 1), (9, 5)], derived := (), calls := [] } 7 ()
    hord (by decide) rfl
  ⟨hord, h.1, h.2.2.1.trans (by decide)⟩

theorem find_add_route_twice (B : RouteManagerType R σ) (self : base_route_manager R σ)
    (route : R) (hfind : find route self.m_routing_table = none) :
    find route (add_route B (add_route B self route).2 route).2.m_routing_table
      = some 2 := by
  rw [add_route_twice B self route hfind, find_assign,
    find_add_route_of_absent B self route hfind]; rfl

theorem remove_route_eq_of_shared (B : RouteManagerType R σ)
    (self : base_route_manager R σ) (route : R) (count : Nat)
    (hfind : find route self.m_routing_table = some count) (hcount : 1 < count) :
    remove_route B self route =
      (.ok false, { m_routing_table := assign route (count - 1) self.m_routing_table,
                    derived := self.derived, calls := self.calls }) := by
  have hne : count ≠ 1 := by omega
  simp [remove_route, hfind, hne, hcount]

/-- With keys in a linear order, which is what `std::map` requires of its comparator: when
`route` is present with a count greater than 1, `remove_route` returns
`false`, makes no call into the derived class (its state and the call log are unchanged),
stores the count less one for `route`, keeps the number of entries, and `has_route(route)`
is still true; in particular so does a `remove_route` that follows two `add_route` calls
on a route that was absent. -/
theorem remove_route_shared (B : RouteManagerType R σ) (self : base_route_manager R σ)
    (route : R) (count : Nat) (hfind : find route self.m_routing_table = some count)
    (hcount : 1 < count) :
    (remove_route B self route).1 = .ok false ∧
    (remove_route B self route).2.calls = self.calls ∧
    (remove_route B self route).2.derived = self.derived ∧
    find route (remove_route B self route).2.m_routing_table = some (count - 1) ∧
    (remove_route B self route).2.m_routing_table.length = self.m_routing_table.length ∧
    has_route (remove_route B self route).2 route = true ∧
    (∀ first : base_route_manager R σ, has_route first route = false →
      (remove_route B (add_route B (add_route B first route).2 route).2 route).1
        = .ok false ∧
      (remove_route B (add_route B (add_route B first route).2 route).2 route).2.calls
        = (add_route B (add_route B first route).2 route).2.calls ∧
      has_route (remove_route B (add_route B (add_route B first route).2 route).2 route).2
        route = true) := by
  rw [remove_route_eq_of_shared B self route count hfind hcount]
  refine ⟨rfl, rfl, rfl, by simp [find_assign, hfind], length_assign _ _ _,
    by simp [has_route, find_assign, hfind], ?_⟩
  intro first habsent
  have h2 := find_add_route_twice B first route (find_eq_none_of_has_route habsent)
  rw [remove_route_eq_of_shared B _ route 2 h2 (by decide)]
  exact ⟨rfl, rfl, by simp [has_route, find_assign, h2]⟩

/-- The lemma `remove_route_shared` at two `add_route(7)` calls followed by one
`remove_route(7)` on a fresh manager. -/
theorem remove_route_shared_witness :
    find 7 (run (succeeding_backend Nat) (base_route_manager.fresh ())
      [client_call.add_route 7, client_call.add_route 7]).m_routing_table = some 2 ∧
    (remove_route (succeeding_backend Nat) (run (succeeding_backend Nat)
      (base_route_manager.fresh ()) [client_call.add_route 7, client_call.add_route 7]) 7).1
        = .ok false ∧
    (remove_route (succeeding_backend Nat) (run (succeeding_backend Nat)
      (base_route_manager.fresh ()) [client_call.add_route 7, client_call.add_route 7]) 7
        ).2.calls = [backend_call.register_route 7] ∧
    has_route (remove_route (succeeding_backend Nat) (run (succeeding_backend Nat)
      (base_route_manager.fresh ()) [client_call.add_route 7, client_call.add_route 7]) 7).2 7
        = true :=
  have h := remove_route_shared (succeeding_backend Nat) (run (succeeding_backend Nat)
      (base_route_manager.fresh ()) [client_call.add_route 7, client_call.add_route 7]) 7 2
    (by decide) (by decide)
  ⟨by decide, h.1, h.2.1.trans (by decide), h.2.2.2.2.2.1⟩

/-- C5: when `route` is absent from the table, `remove_route` returns `false` and leaves
the whole manager as it was: the table, the state of the derived class and the call log
(no `register_route`, no `unregister_route`). -/
theorem remove_route_absent (B : RouteManagerType R σ) (self : base_route_manager R σ)
    (route : R) (habsent : has_route self route = false) :
    remove_route B self route = (.ok false, self) := by
  simp [remove_route, find_eq_none_of_has_route habsent]

/-- C5 on a route never added (`5`) and on a route fully removed again (`7`). -/
theorem remove_route_absent_witness :
    remove_route (scripted_backend Nat) (base_route_manager.fresh []) 5
      = (.ok false, base_route_manager.fresh []) ∧
    remove_route (scripted_backend Nat) (run (scripted_backend Nat)
        (base_route_manager.fresh []) [client_call.add_route 7, client_call.remove_route 7]) 7
      = (.ok false, run (scripted_backend Nat)
        (base_route_manager.fresh []) [client_call.add_route 7, client_call.remove_route 7]) :=
  ⟨remove_route_absent (scripted_backend Nat) (base_route_manager.fresh []) 5 (by decide),
   remove_route_absent (scripted_backend Nat) (run (scripted_backend Nat)
        (base_route_manager.fresh []) [client_call.add_route 7, client_call.remove_route 7]) 7
      (by decide)⟩

/-- C8: when `unregister_route` throws during `remove_route(route)` on an entry with count
1, `remove_route` ends with that exception and the table is exactly as before; a later
`remove_route(route)` calls `unregister_route(route)` again and, when that call returns,
erases the entry and returns `true`. -/
theorem remove_route_unregister_fails (B : RouteManagerType R σ)
    (self : base_route_manager R σ) (route : R) (d : σ) (e : system_error)
    (hfind : find route self.m_routing_table = some 1)
    (hunreg : B.unregister_route self.derived route = (d, some e)) :
    (remove_route B self route).1 = .error e ∧
    (remove_route B self route).2.m_routing_table = self.m_routing_table ∧
    find route (remove_route B self route).2.m_routing_table = some 1 ∧
    (remove_route B self route).2.calls =
      self.calls ++ [backend_call.unregister_route route] ∧
    (remove_route B (remove_route B self route).2 route).2.calls =
      self.calls ++ [backend_call.unregister_route route,
        backend_call.unregister_route route] ∧
    ∀ d2, B.unregister_route d route = (d2, none) →
      remove_route B (remove_route B self route).2 route =
        (.ok true, { m_routing_table := erase route self.m_routing_table, derived := d2,
                     calls := self.calls ++ [backend_call.unregister_route route,
                       backend_call.unregister_route route] }) := by
  have hrem : remove_route B self route =
      (.error e, { m_routing_table := self.m_routing_table, derived := d,
                   calls := self.calls ++ [backend_call.unregister_route route] }) := by
    simp [remove_route, hfind, hunreg]
  rw [hrem]
  refine ⟨rfl, rfl, hfind, rfl, ?_, ?_⟩
  · rcases hres : B.unregister_route d route with ⟨d2, _ | e2⟩ <;>
      simp [remove_route, hfind, hres]
  · intro d2 hd2
    simp [remove_route, hfind, hd2]

/-- C8 at the table holding route `7` once, with a derived class whose first call throws
error 5 and whose second call returns. -/
theorem remove_route_unregister_fails_witness :
    (remove_route (scripted_backend Nat)
      { m_routing_table := [(7, 1)], derived := [some ⟨5⟩, none], calls := [] } 7).1
        = .error ⟨5⟩ ∧
    (remove_route (scripted_backend Nat)
      { m_routing_table := [(7, 1)], derived := [some ⟨5⟩, none], calls := [] } 7
        ).2.m_routing_table = [(7, 1)] ∧
    remove_route (scripted_backend Nat) (remove_route (scripted_backend Nat)
      { m_routing_table := [(7, 1)], derived := [some ⟨5⟩, none], calls := [] } 7).2 7
        = (.ok true, { m_routing_table := [], derived := [],
                       calls := [backend_call.unregister_route 7,
                         backend_call.unregister_route 7] }) :=
  have h := remove_route_unregister_fails (scripted_backend Nat)
    { m_routing_table := [(7, 1)], derived := [some ⟨5⟩, none], calls := [] } 7
    [none] ⟨5⟩ (by decide) rfl
  ⟨h.1, h.2.1, h.2.2.2.2.2 [] rfl⟩

/-- With keys in a linear order, which is what `std::map` requires of its comparator: when
`register_route` throws during `add_route(route)` on an absent route,
`add_route` ends with that exception and `route` is nevertheless in the table with count 1
(`has_route(route)` is true); the next `add_route(route)` returns `false`, makes no call
into the derived class and stores count 2. -/
theorem add_route_register_fails (B : RouteManagerType R σ) (self : base_route_manager R σ)
    (route : R) (d : σ) (e : system_error) (habsent : has_route self route = false)
    (hreg : B.register_route self.derived route = (d, some e)) :
    (add_route B self route).1 = .error e ∧
    find route (add_route B self route).2.m_routing_table = some 1 ∧
    has_route (add_route B self route).2 route = true ∧
    (add_route B self route).2.calls = self.calls ++ [backend_call.register_route route] ∧
    (add_route B (add_route B self route).2 route).1 = .ok false ∧
    (add_route B (add_route B self route).2 route).2.calls =
      (add_route B self route).2.calls ∧
    (add_route B (add_route B self route).2 route).2.derived = d ∧
    find route (add_route B (add_route B self route).2 route).2.m_routing_table
      = some 2 := by
  have hfind := find_eq_none_of_has_route habsent
  have h1 := find_add_route_of_absent B self route hfind
  have hd : (add_route B self route).2.derived = d := by
    simp [add_route, find_subscript, hfind, hreg]
  have h2 := add_route_twice B self route hfind
  refine ⟨?_, h1, by simp [has_route, h1], ?_, by rw [h2], by rw [h2],
    by rw [h2]; exact hd, by rw [h2, find_assign, h1]; rfl⟩
  · simp [add_route, find_subscript, hfind, hreg]
  · simp [add_route, find_subscript, hfind, hreg]

/-- The lemma `add_route_register_fails` at a fresh manager whose derived class throws
error 5 from its first call. -/
theorem add_route_register_fails_witness :
    (add_route (scripted_backend Nat) (base_route_manager.fresh [some ⟨5⟩]) 7).1
      = .error ⟨5⟩ ∧
    has_route (add_route (scripted_backend Nat) (base_route_manager.fresh [some ⟨5⟩]) 7).2 7
      = true ∧
    (add_route (scripted_backend Nat)
      (add_route (scripted_backend Nat) (base_route_manager.fresh [some ⟨5⟩]) 7).2 7).1
        = .ok false :=
  have h := add_route_register_fails (scripted_backend Nat)
    (base_route_manager.fresh [some ⟨5⟩]) 7 [] ⟨5⟩ (by decide) rfl
  ⟨h.1, h.2.2.1, h.2.2.2.2.1⟩

/-! ## Reachable states -/

theorem step_counts (B : RouteManagerType R σ) (self : base_route_manager R σ)
    (call : client_call R) (k : Nat)
    (hinv : ∀ e ∈ self.m_routing_table, 1 ≤ e.2 ∧ e.2 ≤ k)
    (hk : k + (if call.is_add_route then 1 else 0) < unsigned_int_modulus) :
    ∀ e ∈ (step B self call).m_routing_table,
      1 ≤ e.2 ∧ e.2 ≤ k + (if call.is_add_route then 1 else 0) := by
  intro e he
  cases call with
  | add_route route =>
    simp only [client_call.is_add_route, if_true] at hk ⊢
    simp only [step, add_route_table] at he
    rcases mem_assign_subscript _ _ _ _ he with hold | hnew
    · have := hinv e hold
      omega
    · rw [hnew]
      cases hfind : find route self.m_routing_table with
      | none =>
        have h1 : (1 : Nat) % unsigned_int_modulus = 1 := by
          simp [unsigned_int_modulus]
        simp only [Option.getD_none, Nat.zero_add, h1]
        omega
      | some count =>
        have hc := hinv _ (mem_keys_of_find _ _ _ hfind)
        simp only at hc
        have hmod : (count + 1) % unsigned_int_modulus = count + 1 :=
          Nat.mod_eq_of_lt (by omega)
        simp only [Option.getD_some, hmod]
        omega
  | remove_route route =>
    simp only [client_call.is_add_route, Bool.false_eq_true, if_false, Nat.add_zero]
    simp only [step, remove_route] at he
    cases hfind : find route self.m_routing_table with
    | none =>
      rw [hfind] at he
      exact hinv e he
    | some count =>
      rw [hfind] at he
      have hc := hinv _ (mem_keys_of_find _ _ _ hfind)
      simp only at hc
      by_cases h1 : count = 1
      · simp only [h1, if_true] at he
        rcases hres : B.unregister_route self.derived route with ⟨d, _ | err⟩
        · rw [hres] at he
          exact hinv e (mem_erase _ _ _ he)
        · rw [hres] at he
          exact hinv e he
      · have hgt : count > 1 := by omega
        simp only [h1, if_false, hgt, if_true] at he
        rcases mem_assign _ _ _ _ he with hold | hnew
        · exact hinv e hold
        · rw [hnew]
          simp only
          omega

theorem run_counts (B : RouteManagerType R σ) (calls : List (client_call R)) :
    ∀ (self : base_route_manager R σ) (k : Nat),
      (∀ e ∈ self.m_routing_table, 1 ≤ e.2 ∧ e.2 ≤ k) →
      k + calls.countP client_call.is_add_route < unsigned_int_modulus →
      ∀ e ∈ (run B self calls).m_routing_table,
        1 ≤ e.2 ∧ e.2 ≤ k + calls.countP client_call.is_add_route := by
  induction calls with
  | nil => intro self k hinv _ e he; simpa [run] using hinv e he
  | cons call rest ih =>
    intro self k hinv hk e he
    have hcount : (call :: rest).countP client_call.is_add_route =
        (if call.is_add_route then 1 else 0) + rest.countP client_call.is_add_route := by
      rw [List.countP_cons]; omega
    rw [hcount] at hk ⊢
    have hstep := step_counts B self call k hinv (by omega)
    have := ih (step B self call) _ hstep (by omega) e
      (by simpa [run] using he)
    omega

/-- C10, counterexample: the state reached from the empty table by `2 ^ 32` calls of
`add_route(7)` holds route `7` (`has_route(7)` is true) with a reference count of 0. -/
theorem count_pos_counterexample :
    has_route (run (succeeding_backend Nat) (base_route_manager.fresh ())
        (List.replicate (2 ^ 32) (client_call.add_route 7))) 7 = true ∧
    find 7 (run (succeeding_backend Nat) (base_route_manager.fresh ())
        (List.replicate (2 ^ 32) (client_call.add_route 7))).m_routing_table = some 0 ∧
    ¬ ∀ e ∈ (run (succeeding_backend Nat) (base_route_manager.fresh ())
        (List.replicate (2 ^ 32) (client_call.add_route 7))).m_routing_table, 1 ≤ e.2 := by
  have hs := run_add_route_fresh (succeeding_backend Nat) () (7 : Nat) (2 ^ 32)
    (by norm_num)
  have hmod : 2 ^ 32 % unsigned_int_modulus = 0 := Nat.mod_self _
  rw [hmod] at hs
  generalize run (succeeding_backend Nat) (base_route_manager.fresh ())
    (List.replicate (2 ^ 32) (client_call.add_route 7)) = s at hs ⊢
  obtain ⟨table, d, calls⟩ := s
  simp only at hs
  subst hs
  refine ⟨rfl, rfl, ?_⟩
  intro h
  exact absurd (h (7, 0) (List.mem_singleton.mpr rfl)) (by decide)

/-- C10 (amended): in every state reached from the empty table by a finite sequence of
`add_route` and `remove_route` calls that has fewer than `2 ^ 32` `add_route` calls,
whether the calls into the derived class return or throw, every entry of the table has a
count of at least 1 (and at most the number of `add_route` calls, so below `2 ^ 32`). -/
theorem count_pos_of_reachable (B : RouteManagerType R σ) (d : σ)
    (calls : List (client_call R))
    (hadds : calls.countP client_call.is_add_route < 2 ^ 32) :
    ∀ e ∈ (run B (base_route_manager.fresh d) calls).m_routing_table,
      1 ≤ e.2 ∧ e.2 ≤ calls.countP client_call.is_add_route ∧ e.2 < 2 ^ 32 := by
  intro e he
  have h := run_counts B calls (base_route_manager.fresh d) 0
    (by intro e he; simp [base_route_manager.fresh] at he)
    (by simpa [unsigned_int_modulus] using hadds) e he
  omega

/-- C10 at three calls on a fresh manager whose derived class throws from its first
call. -/
theorem count_pos_of_reachable_witness :
    (run (scripted_backend Nat) (base_route_manager.fresh [some ⟨5⟩])
      [client_call.add_route 7, client_call.add_route 3, client_call.remove_route 3]
        ).m_routing_table = [(7, 1)] ∧
    ∀ e ∈ (run (scripted_backend Nat) (base_route_manager.fresh [some ⟨5⟩])
      [client_call.add_route 7, client_call.add_route 3, client_call.remove_route 3]
        ).m_routing_table,
      1 ≤ e.2 ∧ e.2 ≤ [client_call.add_route 7, client_call.add_route 3,
        client_call.remove_route 3].countP client_call.is_add_route ∧ e.2 < 2 ^ 32 :=
  ⟨by decide, count_pos_of_reachable (scripted_backend Nat) [some ⟨5⟩]
    [client_call.add_route 7, client_call.add_route 3, client_call.remove_route 3]
    (by decide)⟩

/-- Every client call keeps the keys of the table strictly ascending. -/
theorem ordered_step (B : RouteManagerType R σ) (self : base_route_manager R σ)
    (call : client_call R) (hord : ordered self.m_routing_table) :
    ordered (step B self call).m_routing_table := by
  cases call with
  | add_route route =>
    simp only [step, add_route_table]
    exact ordered_assign _ _ _ (ordered_subscript _ _ hord)
  | remove_route route =>
    simp only [step, remove_route]
    cases hfind : find route self.m_routing_table with
    | none => exact hord
    | some count =>
      by_cases h1 : count = 1
      · simp only [h1, if_true]
        rcases hres : B.unregister_route self.derived route with ⟨d, _ | err⟩
        · exact ordered_erase _ _ hord
        · exact hord
      · by_cases h2 : count > 1
        · simp only [h1, if_false, h2, if_true]
          exact ordered_assign _ _ _ hord
        · simp only [h1, if_false, h2]
          exact hord

/-- Every state reached from an empty table satisfies the invariant of `std::map`. -/
theorem ordered_run (B : RouteManagerType R σ) (d : σ) (calls : List (client_call R)) :
    ordered (run B (base_route_manager.fresh d) calls).m_routing_table := by
  have hgen : ∀ (calls : List (client_call R)) (self : base_route_manager R σ),
      ordered self.m_routing_table → ordered (run B self calls).m_routing_table := by
    intro calls
    induction calls with
    | nil => intro self h; simpa [run] using h
    | cons call rest ih =>
      intro self h
      have := ih (step B self call) (ordered_step B self call h)
      simpa [run] using this
  exact hgen calls _ (by simp [base_route_manager.fresh, ordered])

end manager_theorems

/-! ## The destructor -/

section destructor_calls

variable {R σ : Type}

theorem after_calls_append_singleton (B : RouteManagerType R σ) (d : σ)
    (calls : List (backend_call R)) (c : backend_call R) :
    after_calls B d (calls ++ [c]) =
      (match c with
       | .register_route r => (B.register_route (after_calls B d calls) r).1
       | .unregister_route r => (B.unregister_route (after_calls B d calls) r).1) := by
  simp [after_calls, List.foldl_append]

theorem destructor_loop_eq (B : RouteManagerType R σ) (table : routing_table_type R) :
    ∀ (d : σ) (calls : List (backend_call R)),
      destructor_loop B table d calls =
        .ok (table.foldl (fun d e => (B.unregister_route d e.1).1) d,
          calls ++ table.map (fun e => backend_call.unregister_route e.1)) := by
  induction table with
  | nil => intro d calls; simp [destructor_loop]
  | cons hd tl ih =>
    intro d calls
    rcases hres : B.unregister_route d hd.1 with ⟨d1, _ | e⟩
    · simp [destructor_loop, hres, ih]
    · simp [destructor_loop, hres, ih]

/-- C7: whatever calls of `unregister_route` throw `system_error`, the destructor ends
without an exception. It applies `unregister_route` of the derived class to the key of
every entry of the table in turn, each call on the derived state that the call before it
left whether that call returned or threw, so the entries after a failing one are attempted
too; the calls made are the same as with any other derived class, one whose
`unregister_route` never throws included. -/
theorem destructor_swallows_errors {τ : Type} (B : RouteManagerType R σ)
    (B0 : RouteManagerType R τ) (self : base_route_manager R σ) (d0 : τ) :
    destructor B self =
      .ok (self.m_routing_table.foldl (fun d e => (B.unregister_route d e.1).1) self.derived,
        self.calls ++
          self.m_routing_table.map (fun e => backend_call.unregister_route e.1)) ∧
    destructor B0 { m_routing_table := self.m_routing_table, derived := d0,
                    calls := self.calls } =
      .ok (self.m_routing_table.foldl (fun d e => (B0.unregister_route d e.1).1) d0,
        self.calls ++
          self.m_routing_table.map (fun e => backend_call.unregister_route e.1)) ∧
    (self.m_routing_table.map (fun e => backend_call.unregister_route e.1)).length
      = self.m_routing_table.length ∧
    ∀ e ∈ self.m_routing_table, backend_call.unregister_route e.1 ∈
      self.m_routing_table.map (fun e => backend_call.unregister_route e.1) := by
  refine ⟨destructor_loop_eq B self.m_routing_table self.derived self.calls,
    destructor_loop_eq B0 self.m_routing_table d0 self.calls, by simp, ?_⟩
  intro e he
  exact List.mem_map.mpr ⟨e, he, rfl⟩

/-- C7 at a table of two routes with a derived class that records the calls it receives,
throws error 1 from the first `unregister_route` and returns from the second: both calls
are received, and the destructor ends without an exception. -/
theorem destructor_swallows_errors_witness :
    ((libstdcxx.recording_backend Nat).unregister_route ([], [some ⟨1⟩, none]) 3).2
      = some ⟨1⟩ ∧
    destructor (libstdcxx.recording_backend Nat)
        { m_routing_table := [(3, 1), (7, 1)], derived := ([], [some ⟨1⟩, none]),
          calls := [] }
      = .ok (([backend_call.unregister_route 3, backend_call.unregister_route 7], []),
          [backend_call.unregister_route 3, backend_call.unregister_route 7]) ∧
    destructor (succeeding_backend Nat)
        { m_routing_table := [(3, 1), (7, 1)], derived := (), calls := [] }
      = .ok ((), [backend_call.unregister_route 3, backend_call.unregister_route 7]) :=
  have h := destructor_swallows_errors (libstdcxx.recording_backend Nat)
    (succeeding_backend Nat)
    { m_routing_table := [(3, 1), (7, 1)], derived := ([], [some ⟨1⟩, none]), calls := [] }
    ()
  ⟨rfl, h.1.trans rfl, h.2.1.trans rfl⟩

end destructor_calls

section destructor_theorems

variable {R σ : Type} [LinearOrder R]

open routing_table_type

theorem count_unregister_route (table : routing_table_type R) (route : R) :
    (table.map (fun e => backend_call.unregister_route e.1)).count
        (backend_call.unregister_route route) = (table.map Prod.fst).count route := by
  induction table with
  | nil => rfl
  | cons hd tl ih =>
    simp only [List.map_cons, List.count_cons, ih]
    by_cases h : hd.1 = route <;> simp [h]

/-- With keys in a linear order, which is what `std::map` requires of its comparator: the
destructor of a manager whose table holds `N` entries (with distinct keys, as
in every `std::map`) ends without an exception, and the calls it makes into the derived
class are `unregister_route(k)` for the keys `k` of the table in key order: `N` calls,
exactly one for each route that is a key whatever its count, none for a route that is not
a key, and no `register_route` at all. -/
theorem destructor_unregisters_each_key (B : RouteManagerType R σ)
    (self : base_route_manager R σ) (hord : ordered self.m_routing_table) :
    ∃ made, destructor B self =
        .ok (self.m_routing_table.foldl (fun d e => (B.unregister_route d e.1).1)
          self.derived, self.calls ++ made) ∧
      made = self.m_routing_table.map (fun e => backend_call.unregister_route e.1) ∧
      made.length = self.m_routing_table.length ∧
      (∀ route, has_route self route = true →
        made.count (backend_call.unregister_route route) = 1) ∧
      (∀ route, has_route self route = false →
        made.count (backend_call.unregister_route route) = 0) ∧
      (∀ route, made.count (backend_call.register_route route) = 0) := by
  have hd := destructor_loop_eq B self.m_routing_table self.derived self.calls
  refine ⟨_, hd, rfl, by simp, ?_, ?_, ?_⟩
  · intro route hroute
    rw [count_unregister_route]
    obtain ⟨count, hcount⟩ := Option.isSome_iff_exists.mp hroute
    have hmem : route ∈ self.m_routing_table.map Prod.fst :=
      List.mem_map.mpr ⟨(route, count), mem_keys_of_find _ _ _ hcount, rfl⟩
    exact List.count_eq_one_of_mem (nodup_keys _ hord) hmem
  · intro route hroute
    rw [count_unregister_route, List.count_eq_zero]
    intro hmem
    obtain ⟨⟨k, v⟩, he, hk⟩ := List.mem_map.mp hmem
    simp only at hk
    subst hk
    have := find_of_mem k v _ hord he
    simp [has_route, this] at hroute
  · intro route
    rw [List.count_eq_zero]
    simp

/-- The lemma `destructor_unregisters_each_key` at the table holding routes `3`, `7`, `9`
with counts `2`, `1`, `5`. -/
theorem destructor_unregisters_each_key_witness :
    ordered ([(3, 2), (7, 1), (9, 5)] : routing_table_type Nat) ∧
    ∃ made, destructor (succeeding_backend Nat)
        { m_routing_table := [(3, 2), (7, 1), (9, 5)], derived := (), calls := [] }
          = .ok ((), [] ++ made) ∧
      made = [backend_call.unregister_route 3, backend_call.unregister_route 7,
        backend_call.unregister_route 9] :=
  have hord : ordered ([(3, 2), (7, 1), (9, 5)] : routing_table_type Nat) := by
    simp [ordered]
  have h := destructor_unregisters_each_key (succeeding_backend Nat)
    { m_routing_table := [(3, 2), (7, 1), (9, 5)], derived := (), calls := [] } hord
  ⟨hord, h.imp (fun _ hm => ⟨hm.1, hm.2.1⟩)⟩

end destructor_theorems

/-! ## The routing table entry -/

section entry_theorems

variable {InterfaceType N G : Type}

theorem optional_less_irrefl [LinearOrder G] (x : Option G) : optional_less x x = false := by
  cases x <;> simp [optional_less]

theorem optional_equivalent_iff [LinearOrder G] (x y : Option G) :
    (optional_less x y = false ∧ optional_less y x = false) ↔ x = y := by
  cases x with
  | none => cases y <;> simp [optional_less]
  | some a =>
    cases y with
    | none => simp [optional_less]
    | some b =>
      simp only [optional_less, decide_eq_false_iff_not, not_lt, Option.some.injEq]
      exact ⟨fun h => le_antisymm h.2 h.1, fun h => h ▸ ⟨le_refl _, le_refl _⟩⟩

theorem optional_equal_iff [LinearOrder G] (x y : Option G) :
    optional_equal x y = true ↔ x = y := by
  cases x <;> cases y <;> simp [optional_equal]

/-- C13: the `operator<` of the source at two unequal entries over natural numbers,
`a = (1, 2, no gateway)` and `b = (2, 1, no gateway)`: `a < b` by the interfaces and
`b < a` by the networks, so the relation is not asymmetric, does not have exactly one of
`a < b`, `b < a`, and is not transitive (`a < b`, `b < a`, but not `a < a`). -/
theorem operator_less_not_strict_order :
    base_routing_table_entry.operator_less
      ({ interface := 1, network := 2, gateway := none } : base_routing_table_entry Nat Nat Nat)
      { interface := 2, network := 1, gateway := none } = true ∧
    base_routing_table_entry.operator_less
      ({ interface := 2, network := 1, gateway := none } : base_routing_table_entry Nat Nat Nat)
      { interface := 1, network := 2, gateway := none } = true ∧
    base_routing_table_entry.operator_less
      ({ interface := 1, network := 2, gateway := none } : base_routing_table_entry Nat Nat Nat)
      { interface := 1, network := 2, gateway := none } = false ∧
    ({ interface := 1, network := 2, gateway := none } : base_routing_table_entry Nat Nat Nat)
      ≠ { interface := 2, network := 1, gateway := none } := by
  decide

/-- C14: writing an entry to a stream appends exactly the rendering of the interface, then
" - ", then the rendering of the network, then " - ", then the rendering of the gateway
when there is one and the text "no gateway" when there is none. -/
theorem operator_output_eq (render_interface : InterfaceType → String)
    (render_network : N → String) (render_gateway : G → String) (os : String)
    (value : base_routing_table_entry InterfaceType N G) :
    base_routing_table_entry.operator_output render_interface render_network render_gateway
        os value =
      os ++ (render_interface value.interface ++ (" - " ++ (render_network value.network ++
        (" - " ++ (match value.gateway with
                   | some gateway => render_gateway gateway
                   | none => "no gateway"))))) := by
  unfold base_routing_table_entry.operator_output
  cases value.gateway with
  | none =>
    have h : " - no gateway" = " - " ++ "no gateway" := by decide
    simp only [h, String.append_assoc]
  | some gateway => simp only [String.append_assoc]

/-- C17: with linear orders on the three field types, two entries are equivalent under the
`operator<` of the source (neither is less than the other) exactly when `operator==` holds
for them, which is exactly when the three fields are equal. -/
theorem operator_less_equivalence_iff_equal [LinearOrder InterfaceType] [LinearOrder N]
    [LinearOrder G] (a b : base_routing_table_entry InterfaceType N G) :
    ((a.operator_less b = false ∧ b.operator_less a = false) ↔ a.operator_equal b = true) ∧
    (a.operator_equal b = true ↔
      (a.interface = b.interface ∧ a.network = b.network ∧ a.gateway = b.gateway)) ∧
    (a.operator_equal b = true ↔ a = b) := by
  have heq : a.operator_equal b = true ↔
      (a.interface = b.interface ∧ a.network = b.network ∧ a.gateway = b.gateway) := by
    simp [base_routing_table_entry.operator_equal, optional_equal_iff, and_assoc]
  have hless : (a.operator_less b = false ∧ b.operator_less a = false) ↔
      (a.interface = b.interface ∧ a.network = b.network ∧ a.gateway = b.gateway) := by
    simp only [base_routing_table_entry.operator_less, Bool.or_eq_false_iff,
      decide_eq_false_iff_not, not_lt]
    rw [← optional_equivalent_iff a.gateway b.gateway]
    constructor
    · rintro ⟨⟨⟨h1, h2⟩, h3⟩, ⟨h4, h5⟩, h6⟩
      exact ⟨le_antisymm h4 h1, le_antisymm h5 h2, h3, h6⟩
    · rintro ⟨h1, h2, h3, h4⟩
      exact ⟨⟨⟨h1.ge, h2.ge⟩, h3⟩, ⟨h1.le, h2.le⟩, h4⟩
  refine ⟨hless.trans heq.symm, heq, heq.trans ?_⟩
  constructor
  · rintro ⟨h1, h2, h3⟩
    cases a; cases b; simp_all
  · rintro rfl
    exact ⟨rfl, rfl, rfl⟩

end entry_theorems

/-! ## Other routes -/

namespace routing_table_type

variable {R : Type} [LinearOrder R]

theorem find_subscript_ne (route other : R) (table : routing_table_type R)
    (hne : other ≠ route) : find other (subscript route table) = find other table := by
  induction table with
  | nil =>
    rcases lt_or_gt_of_ne hne with h | h
    · simp [find, subscript, h, lt_asymm h]
    · simp [find, subscript, h]
  | cons hd tl ih =>
    obtain ⟨k, v⟩ := hd
    by_cases h1 : k < route
    · simp only [subscript, if_pos h1, find, ih]
    · by_cases h2 : route < k
      · simp only [subscript, if_neg h1, if_pos h2]
        rcases lt_or_gt_of_ne hne with h | h
        · have hk : other < k := lt_trans h h2
          simp [find, h, lt_asymm h, hk, lt_asymm hk]
        · have h' : route < other := h
          simp [find, h']
      · simp only [subscript, if_neg h1, if_neg h2]

theorem find_assign_ne (route other : R) (count : Nat) (table : routing_table_type R)
    (hne : other ≠ route) : find other (assign route count table) = find other table := by
  induction table with
  | nil => rfl
  | cons hd tl ih =>
    obtain ⟨k, v⟩ := hd
    by_cases h1 : k < route
    · simp only [assign, if_pos h1, find, ih]
    · by_cases h2 : route < k
      · simp only [assign, if_neg h1, if_pos h2]
      · have hk : k = route := le_antisymm (not_lt.mp h2) (not_lt.mp h1)
        subst hk
        simp only [assign, if_neg h1, find]
        rcases lt_or_gt_of_ne hne with h | h
        · simp [h, lt_asymm h]
        · have h' : k < other := h
          simp [h']

theorem find_erase_ne (route other : R) (table : routing_table_type R)
    (hord : ordered table) (hne : other ≠ route) :
    find other (erase route table) = find other table := by
  induction table with
  | nil => rfl
  | cons hd tl ih =>
    obtain ⟨k, v⟩ := hd
    have hhead := (List.pairwise_cons.mp hord).1
    by_cases h1 : k < route
    · simp only [erase, if_pos h1, find, ih (ordered_tail hord)]
    · by_cases h2 : route < k
      · simp only [erase, if_neg h1, if_pos h2]
      · have hk : k = route := le_antisymm (not_lt.mp h2) (not_lt.mp h1)
        subst hk
        simp only [erase, if_neg h1, find]
        rcases lt_or_gt_of_ne hne with h | h
        · rw [if_neg (lt_asymm h), if_pos h]
          exact find_eq_none_of_forall_lt _ _ (fun e he => lt_trans h (hhead e he))
        · have h' : k < other := h
          rw [if_pos h']

end routing_table_type

section frame_theorems

variable {R σ : Type} [LinearOrder R]

open routing_table_type

theorem add_route_calls (B : RouteManagerType R σ) (self : base_route_manager R σ)
    (route : R) :
    (add_route B self route).2.calls =
      if (find route self.m_routing_table).getD 0 = 0
      then self.calls ++ [backend_call.register_route route] else self.calls := by
  simp only [add_route, find_subscript, Option.getD_some]
  split
  · split <;> rfl
  · rfl

theorem remove_route_calls (B : RouteManagerType R σ) (self : base_route_manager R σ)
    (route : R) :
    (remove_route B self route).2.calls =
      if find route self.m_routing_table = some 1
      then self.calls ++ [backend_call.unregister_route route] else self.calls := by
  unfold remove_route
  cases hfind : find route self.m_routing_table with
  | none => simp
  | some count =>
    by_cases h1 : count = 1
    · subst h1
      rcases hres : B.unregister_route self.derived route with ⟨d, _ | err⟩ <;> simp
    · by_cases h2 : count > 1 <;> simp [h1, h2]

theorem find_remove_route_ne (B : RouteManagerType R σ) (self : base_route_manager R σ)
    (route other : R) (hord : ordered self.m_routing_table) (hne : other ≠ route) :
    find other (remove_route B self route).2.m_routing_table
      = find other self.m_routing_table := by
  unfold remove_route
  cases hfind : find route self.m_routing_table with
  | none => rfl
  | some count =>
    by_cases h1 : count = 1
    · subst h1
      rcases hres : B.unregister_route self.derived route with ⟨d, _ | err⟩
      · simp [find_erase_ne route other _ hord hne]
      · simp
    · by_cases h2 : count > 1
      · simp [h1, h2, find_assign_ne route other _ _ hne]
      · simp [h1, h2]

theorem find_add_route_ne (B : RouteManagerType R σ) (self : base_route_manager R σ)
    (route other : R) (hne : other ≠ route) :
    find other (add_route B self route).2.m_routing_table
      = find other self.m_routing_table := by
  rw [add_route_table, find_assign_ne route other _ _ hne, find_subscript_ne route other _ hne]

/-- With keys in a linear order, which is what `std::map` requires of its comparator: 
`add_route(route)` and `remove_route(route)` leave every other route as it was:
for `other ≠ route` the lookup of `other` (its presence and its count) is the same before
and after the call, whatever the calls into the derived class do, and every call the
operation makes into the derived class has `route` as its argument. -/
theorem only_route_touched (B : RouteManagerType R σ) (self : base_route_manager R σ)
    (route other : R) (hord : ordered self.m_routing_table) (hne : other ≠ route) :
    find other (add_route B self route).2.m_routing_table
      = find other self.m_routing_table ∧
    has_route (add_route B self route).2 other = has_route self other ∧
    find other (remove_route B self route).2.m_routing_table
      = find other self.m_routing_table ∧
    has_route (remove_route B self route).2 other = has_route self other ∧
    (∃ made, (add_route B self route).2.calls = self.calls ++ made ∧
      ∀ c ∈ made, c = backend_call.register_route route) ∧
    (∃ made, (remove_route B self route).2.calls = self.calls ++ made ∧
      ∀ c ∈ made, c = backend_call.unregister_route route) := by
  have hadd := find_add_route_ne B self route other hne
  have hrem := find_remove_route_ne B self route other hord hne
  refine ⟨hadd, by simp [has_route, hadd], hrem, by simp [has_route, hrem], ?_, ?_⟩
  · rw [add_route_calls]
    split
    · exact ⟨_, rfl, by simp⟩
    · exact ⟨[], by simp, by simp⟩
  · rw [remove_route_calls]
    split
    · exact ⟨_, rfl, by simp⟩
    · exact ⟨[], by simp, by simp⟩

/-- The lemma `only_route_touched` at the table holding routes `3`, `7`, `9` with counts
`2`, `1`, `5`: calls on `7`
with a derived class that throws, looked at from route `9`. -/
theorem only_route_touched_witness :
    ordered ([(3, 2), (7, 1), (9, 5)] : routing_table_type Nat) ∧
    find 9 (remove_route (scripted_backend Nat)
      { m_routing_table := [(3, 2), (7, 1), (9, 5)], derived := [some ⟨5⟩], calls := [] } 7
        ).2.m_routing_table = some 5 ∧
    find 9 (add_route (scripted_backend Nat)
      { m_routing_table := [(3, 2), (7, 1), (9, 5)], derived := [some ⟨5⟩], calls := [] } 7
        ).2.m_routing_table = some 5 :=
  have hord : ordered ([(3, 2), (7, 1), (9, 5)] : routing_table_type Nat) := by
    simp [ordered]
  have h := only_route_touched (scripted_backend Nat)
    { m_routing_table := [(3, 2), (7, 1), (9, 5)], derived := [some ⟨5⟩], calls := [] } 7 9
    hord (by decide)
  ⟨hord, h.2.2.1.trans (by decide), h.1.trans (by decide)⟩

end frame_theorems

/-! ## Wrap-around of the count -/

section wrap_theorems

variable {R σ : Type} [LinearOrder R]

open routing_table_type

theorem remove_route_eq_of_zero (B : RouteManagerType R σ) (self : base_route_manager R σ)
    (route : R) (hfind : find route self.m_routing_table = some 0) :
    remove_route B self route = (.ok false, self) := by
  simp [remove_route, hfind]

theorem add_route_outcome_of_zero (B : RouteManagerType R σ) (self : base_route_manager R σ)
    (route : R) (d : σ) (hold : (find route self.m_routing_table).getD 0 = 0)
    (hreg : B.register_route self.derived route = (d, none)) :
    (add_route B self route).1 = .ok true := by
  simp [add_route, find_subscript, hold, hreg]

/-- C18: `add_route(route)` on an entry whose count is `2 ^ 32 - 1` stores count 0, returns
`false`, makes no call into the derived class and leaves `route` a key of the table; in
that state `remove_route(route)` returns `false` and leaves the manager as it is, and the
next `add_route(route)` calls `register_route(route)` again, stores count 1 and, when that
call returns, returns `true`. -/
theorem add_route_wraps (B : RouteManagerType R σ) (self : base_route_manager R σ)
    (route : R) (hfind : find route self.m_routing_table = some (2 ^ 32 - 1)) :
    (add_route B self route).1 = .ok false ∧
    (add_route B self route).2.calls = self.calls ∧
    find route (add_route B self route).2.m_routing_table = some 0 ∧
    has_route (add_route B self route).2 route = true ∧
    remove_route B (add_route B self route).2 route
      = (.ok false, (add_route B self route).2) ∧
    (add_route B (add_route B self route).2 route).2.calls
      = self.calls ++ [backend_call.register_route route] ∧
    find route (add_route B (add_route B self route).2 route).2.m_routing_table = some 1 ∧
    (∀ d, B.register_route self.derived route = (d, none) →
      (add_route B (add_route B self route).2 route).1 = .ok true) := by
  have heq := add_route_eq_of_present B self route (2 ^ 32 - 1) hfind (by norm_num)
  have hmod : (2 ^ 32 - 1 + 1) % unsigned_int_modulus = 0 := by
    simp [unsigned_int_modulus]
  rw [hmod] at heq
  have hzero : find route (add_route B self route).2.m_routing_table = some 0 := by
    rw [heq, find_assign, hfind]; rfl
  have hcalls : (add_route B self route).2.calls = self.calls := by rw [heq]
  have hderived : (add_route B self route).2.derived = self.derived := by rw [heq]
  refine ⟨by rw [heq], hcalls, hzero, by simp [has_route, hzero],
    remove_route_eq_of_zero B _ route hzero, ?_, ?_, ?_⟩
  · rw [add_route_calls, hzero, hcalls]; simp
  · rw [add_route_table, find_assign, find_subscript, hzero]; rfl
  · intro d hd
    rw [← hderived] at hd
    exact add_route_outcome_of_zero B _ route d (by rw [hzero]; rfl) hd

/-- C18 at the table holding route `7` with count `4294967295`. -/
theorem add_route_wraps_witness :
    find 7 (add_route (succeeding_backend Nat)
      { m_routing_table := [(7, 4294967295)], derived := (), calls := [] } 7
        ).2.m_routing_table = some 0 ∧
    (add_route (succeeding_backend Nat) (add_route (succeeding_backend Nat)
      { m_routing_table := [(7, 4294967295)], derived := (), calls := [] } 7).2 7).1
        = .ok true :=
  have h := add_route_wraps (succeeding_backend Nat)
    { m_routing_table := [(7, 4294967295)], derived := (), calls := [] } 7 (by decide)
  ⟨h.2.2.1, h.2.2.2.2.2.2.2 () rfl⟩

end wrap_theorems

/-! ## Balanced adds and removes -/

namespace routing_table_type

variable {R : Type} [LinearOrder R]

theorem assign_of_find (route : R) (count : Nat) (table : routing_table_type R)
    (h : find route table = some count) : assign route count table = table := by
  induction table with
  | nil => rfl
  | cons hd tl ih =>
    obtain ⟨k, v⟩ := hd
    by_cases h1 : k < route
    · simp only [find, if_pos h1] at h
      simp only [assign, if_pos h1, ih h]
    · by_cases h2 : route < k
      · simp only [assign, if_neg h1, if_pos h2]
      · simp only [find, if_neg h1, if_neg h2, Option.some.injEq] at h
        simp only [assign, if_neg h1, if_neg h2, h]

theorem assign_assign (route : R) (a b : Nat) (table : routing_table_type R) :
    assign route a (assign route b table) = assign route a table := by
  induction table with
  | nil => rfl
  | cons hd tl ih =>
    obtain ⟨k, v⟩ := hd
    by_cases h1 : k < route
    · simp only [assign, if_pos h1, ih]
    · by_cases h2 : route < k
      · simp only [assign, if_neg h1, if_pos h2]
      · simp only [assign, if_neg h1, if_neg h2]

theorem erase_assign_subscript (route : R) (count : Nat) (table : routing_table_type R)
    (h : find route table = none) :
    erase route (assign route count (subscript route table)) = table := by
  induction table with
  | nil => simp [subscript, assign, erase]
  | cons hd tl ih =>
    obtain ⟨k, v⟩ := hd
    by_cases h1 : k < route
    · simp only [find, if_pos h1] at h
      simp only [subscript, assign, erase, if_pos h1, ih h]
    · by_cases h2 : route < k
      · simp [subscript, assign, erase, h1, h2]
      · simp [find, h1, h2] at h

end routing_table_type

section balanced_theorems

variable {R σ : Type} [LinearOrder R]

open routing_table_type

theorem run_cons (B : RouteManagerType R σ) (self : base_route_manager R σ)
    (call : client_call R) (rest : List (client_call R)) :
    run B self (call :: rest) = run B (step B self call) rest := rfl

theorem outcomes_append (B : RouteManagerType R σ) (xs ys : List (client_call R)) :
    ∀ self : base_route_manager R σ,
      outcomes B self (xs ++ ys) = outcomes B self xs ++ outcomes B (run B self xs) ys := by
  induction xs with
  | nil => intro self; rfl
  | cons call rest ih =>
    intro self
    show outcome B self call :: outcomes B (step B self call) (rest ++ ys) = _
    rw [ih]
    rfl

/-- On an entry with count `count ≥ 1`, `k` more `add_route` calls that do not reach
`2 ^ 32` all return `false` and only raise the count by `k`. -/
theorem run_add_route_present (B : RouteManagerType R σ) (route : R) (k : Nat) :
    ∀ (self : base_route_manager R σ) (count : Nat),
      find route self.m_routing_table = some count → 1 ≤ count →
      count + k < unsigned_int_modulus →
      run B self (List.replicate k (client_call.add_route route)) =
        { m_routing_table := assign route (count + k) self.m_routing_table,
          derived := self.derived, calls := self.calls } ∧
      outcomes B self (List.replicate k (client_call.add_route route)) =
        List.replicate k (.ok false) := by
  induction k with
  | zero =>
    intro self count hfind _ _
    simp [run, outcomes, assign_of_find route count _ hfind]
  | succ k ih =>
    intro self count hfind hcount hlt
    have heq := add_route_eq_of_present B self route count hfind (by omega)
    rw [Nat.mod_eq_of_lt (by omega)] at heq
    have hstep : step B self (client_call.add_route route) =
        { m_routing_table := assign route (count + 1) self.m_routing_table,
          derived := self.derived, calls := self.calls } := by
      simp only [step, heq]
    have hfind' : find route (step B self (client_call.add_route route)).m_routing_table
        = some (count + 1) := by
      rw [hstep, find_assign, hfind]; rfl
    obtain ⟨hrun, hout⟩ := ih _ (count + 1) hfind' (by omega) (by omega)
    rw [List.replicate_succ, run_cons, hrun]
    simp only [outcomes, hout, outcome, heq, List.replicate_succ]
    refine ⟨?_, trivial⟩
    rw [hstep]
    simp only [assign_assign]
    have : count + 1 + k = count + (k + 1) := by omega
    rw [this]

/-- On an entry with count `count + k` where `count ≥ 1`, `k` `remove_route` calls all
return `false` and only lower the count to `count`. -/
theorem run_remove_route_shared (B : RouteManagerType R σ) (route : R) (k : Nat) :
    ∀ (self : base_route_manager R σ) (count : Nat),
      find route self.m_routing_table = some (count + k) → 1 ≤ count →
      run B self (List.replicate k (client_call.remove_route route)) =
        { m_routing_table := assign route count self.m_routing_table,
          derived := self.derived, calls := self.calls } ∧
      outcomes B self (List.replicate k (client_call.remove_route route)) =
        List.replicate k (.ok false) := by
  induction k with
  | zero =>
    intro self count hfind _
    simp [run, outcomes, assign_of_find route count _ hfind]
  | succ k ih =>
    intro self count hfind hcount
    have heq := remove_route_eq_of_shared B self route (count + (k + 1)) hfind (by omega)
    have hsub : count + (k + 1) - 1 = count + k := by omega
    rw [hsub] at heq
    have hstep : step B self (client_call.remove_route route) =
        { m_routing_table := assign route (count + k) self.m_routing_table,
          derived := self.derived, calls := self.calls } := by
      simp only [step, heq]
    have hfind' : find route (step B self (client_call.remove_route route)).m_routing_table
        = some (count + k) := by
      rw [hstep, find_assign, hfind]; rfl
    obtain ⟨hrun, hout⟩ := ih _ count hfind' hcount
    rw [List.replicate_succ, run_cons, hrun]
    simp only [outcomes, hout, outcome, heq, List.replicate_succ]
    refine ⟨?_, trivial⟩
    rw [hstep]
    simp only [assign_assign]

theorem add_route_eq_of_absent (B : RouteManagerType R σ) (self : base_route_manager R σ)
    (route : R) (d : σ) (hfind : find route self.m_routing_table = none)
    (hreg : B.register_route self.derived route = (d, none)) :
    add_route B self route =
      (.ok true, { m_routing_table := assign route 1 (subscript route self.m_routing_table),
                   derived := d,
                   calls := self.calls ++ [backend_call.register_route route] }) := by
  simp [add_route, find_subscript, hfind, hreg, unsigned_int_modulus]

theorem remove_route_eq_of_last (B : RouteManagerType R σ) (self : base_route_manager R σ)
    (route : R) (d : σ) (hfind : find route self.m_routing_table = some 1)
    (hunreg : B.unregister_route self.derived route = (d, none)) :
    remove_route B self route =
      (.ok true, { m_routing_table := erase route self.m_routing_table, derived := d,
                   calls := self.calls ++ [backend_call.unregister_route route] }) := by
  simp [remove_route, hfind, hunreg]

/-- The `n = m + 1` calls of `add_route(route)` on an absent route. -/
theorem run_add_route_absent (B : RouteManagerType R σ) (self : base_route_manager R σ)
    (route : R) (m : Nat) (d : σ) (hfind : find route self.m_routing_table = none)
    (hlt : m + 1 < unsigned_int_modulus)
    (hreg : B.register_route self.derived route = (d, none)) :
    run B self (List.replicate (m + 1) (client_call.add_route route)) =
      { m_routing_table := assign route (m + 1) (subscript route self.m_routing_table),
        derived := d, calls := self.calls ++ [backend_call.register_route route] } ∧
    outcomes B self (List.replicate (m + 1) (client_call.add_route route)) =
      .ok true :: List.replicate m (.ok false) := by
  have heq := add_route_eq_of_absent B self route d hfind hreg
  have hstep : step B self (client_call.add_route route) =
      { m_routing_table := assign route 1 (subscript route self.m_routing_table),
        derived := d, calls := self.calls ++ [backend_call.register_route route] } := by
    simp only [step, heq]
  have hfind1 : find route (step B self (client_call.add_route route)).m_routing_table
      = some 1 := by
    rw [hstep, find_assign, find_subscript]; rfl
  obtain ⟨hrun, hout⟩ := run_add_route_present B route m _ 1 hfind1 (le_refl 1) (by omega)
  rw [List.replicate_succ, run_cons, hrun]
  simp only [outcomes, hout, outcome, heq]
  refine ⟨?_, trivial⟩
  rw [hstep]
  simp only [assign_assign]
  have : 1 + m = m + 1 := by omega
  rw [this]

/-- The `n = m + 1` calls of `remove_route(route)` on an entry with count `m + 1`. -/
theorem run_remove_route_all (B : RouteManagerType R σ) (self : base_route_manager R σ)
    (route : R) (m : Nat) (d : σ) (hfind : find route self.m_routing_table = some (m + 1))
    (hunreg : B.unregister_route self.derived route = (d, none)) :
    run B self (List.replicate (m + 1) (client_call.remove_route route)) =
      { m_routing_table := erase route (assign route 1 self.m_routing_table),
        derived := d, calls := self.calls ++ [backend_call.unregister_route route] } ∧
    outcomes B self (List.replicate (m + 1) (client_call.remove_route route)) =
      List.replicate m (.ok false) ++ [.ok true] := by
  have hfind' : find route self.m_routing_table = some (1 + m) := by
    rw [hfind]; congr 1; omega
  obtain ⟨hrun, hout⟩ := run_remove_route_shared B route m self 1 hfind' (le_refl 1)
  have hfind1 : find route (run B self (List.replicate m (client_call.remove_route route))
      ).m_routing_table = some 1 := by
    rw [hrun, find_assign, hfind]; rfl
  have hderived : (run B self (List.replicate m (client_call.remove_route route))).derived
      = self.derived := by rw [hrun]
  have heq := remove_route_eq_of_last B _ route d hfind1 (by rw [hderived]; exact hunreg)
  rw [List.replicate_succ', run_append, outcomes_append, hout]
  constructor
  · show (remove_route B _ route).2 = _
    rw [heq, hrun]
  · show _ ++ [(remove_route B _ route).1] = _
    rw [heq]

/-- With keys in a linear order, which is what `std::map` requires of its comparator: from
a state where `route` is absent, with the two calls into the derived class
returning, `n` calls of `add_route(route)` followed by `n` calls of `remove_route(route)`,
`1 ≤ n < 2 ^ 32`, return `true` then `n - 1` times `false`, then `n - 1` times `false` then
`true`; the count is `n` after the adds; in total the derived class gets one
`register_route(route)` and then one `unregister_route(route)`, and the table ends equal
to the starting table, with `has_route(route)` false. -/
theorem add_remove_balanced (B : RouteManagerType R σ) (self : base_route_manager R σ)
    (route : R) (n : Nat) (d1 d2 : σ) (habsent : has_route self route = false)
    (hn : 1 ≤ n) (hlt : n < 2 ^ 32)
    (hreg : B.register_route self.derived route = (d1, none))
    (hunreg : B.unregister_route d1 route = (d2, none)) :
    outcomes B self (List.replicate n (client_call.add_route route) ++
        List.replicate n (client_call.remove_route route)) =
      (.ok true :: List.replicate (n - 1) (.ok false)) ++
        (List.replicate (n - 1) (.ok false) ++ [.ok true]) ∧
    find route (run B self (List.replicate n (client_call.add_route route))).m_routing_table
      = some n ∧
    run B self (List.replicate n (client_call.add_route route) ++
        List.replicate n (client_call.remove_route route)) =
      { m_routing_table := self.m_routing_table, derived := d2,
        calls := self.calls ++ [backend_call.register_route route,
          backend_call.unregister_route route] } ∧
    has_route (run B self (List.replicate n (client_call.add_route route) ++
        List.replicate n (client_call.remove_route route))) route = false := by
  obtain ⟨m, rfl⟩ : ∃ m, n = m + 1 := ⟨n - 1, by omega⟩
  have hfind := find_eq_none_of_has_route habsent
  obtain ⟨hA, hAo⟩ := run_add_route_absent B self route m d1 hfind
    (by simp only [unsigned_int_modulus]; omega) hreg
  have hfindA : find route (run B self (List.replicate (m + 1)
      (client_call.add_route route))).m_routing_table = some (m + 1) := by
    rw [hA, find_assign, find_subscript]; rfl
  obtain ⟨hR, hRo⟩ := run_remove_route_all B
    (run B self (List.replicate (m + 1) (client_call.add_route route))) route m d2 hfindA
    (by rw [hA]; exact hunreg)
  have hrun : run B self (List.replicate (m + 1) (client_call.add_route route) ++
        List.replicate (m + 1) (client_call.remove_route route)) =
      { m_routing_table := self.m_routing_table, derived := d2,
        calls := self.calls ++ [backend_call.register_route route,
          backend_call.unregister_route route] } := by
    rw [run_append, hR, hA]
    simp only [assign_assign, erase_assign_subscript route 1 _ hfind, List.append_assoc,
      List.singleton_append]
  refine ⟨?_, hfindA, hrun, ?_⟩
  · rw [outcomes_append, hAo, hRo]
    simp
  · rw [hrun]
    exact habsent

/-- The lemma `add_remove_balanced` at `n = 2` for the route of interface "tun0", network
10.0.0.0/24 (address
`167772160`, prefix length `24`) and no gateway (`⊥`), keys in lexicographic order. -/
theorem add_remove_balanced_witness :
    outcomes (succeeding_backend (Lex (String × Lex (Lex (Nat × Nat) × WithBot Nat))))
        (base_route_manager.fresh ())
        (List.replicate 2 (client_call.add_route
            (toLex ("tun0", toLex (toLex (167772160, 24), (⊥ : WithBot Nat))))) ++
          List.replicate 2 (client_call.remove_route
            (toLex ("tun0", toLex (toLex (167772160, 24), (⊥ : WithBot Nat)))))) =
      [.ok true, .ok false, .ok false, .ok true] ∧
    run (succeeding_backend (Lex (String × Lex (Lex (Nat × Nat) × WithBot Nat))))
        (base_route_manager.fresh ())
        (List.replicate 2 (client_call.add_route
            (toLex ("tun0", toLex (toLex (167772160, 24), (⊥ : WithBot Nat))))) ++
          List.replicate 2 (client_call.remove_route
            (toLex ("tun0", toLex (toLex (167772160, 24), (⊥ : WithBot Nat)))))) =
      { m_routing_table := [], derived := (),
        calls := [backend_call.register_route
            (toLex ("tun0", toLex (toLex (167772160, 24), (⊥ : WithBot Nat)))),
          backend_call.unregister_route
            (toLex ("tun0", toLex (toLex (167772160, 24), (⊥ : WithBot Nat))))] } :=
  have h := add_remove_balanced
    (succeeding_backend (Lex (String × Lex (Lex (Nat × Nat) × WithBot Nat))))
    (base_route_manager.fresh ())
    (toLex ("tun0", toLex (toLex (167772160, 24), (⊥ : WithBot Nat)))) 2 () ()
    rfl (by decide) (by decide) rfl rfl
  ⟨h.1, h.2.2.1⟩

end balanced_theorems

/-! ## The routes installed through the derived class -/

section installed_theorems

variable {R σ : Type} [LinearOrder R]

open routing_table_type

theorem track_append_singleton (route : R) (calls : List (backend_call R))
    (c : backend_call R) :
    track route (calls ++ [c]) = track_step route (track route calls) c := by
  simp [track, List.foldl_append]

theorem installed_append_register (route r : R) (calls : List (backend_call R)) :
    installed r (calls ++ [backend_call.register_route route]) =
      if route = r then true else installed r calls := by
  simp only [installed, track_append_singleton, track_step]
  split <;> rfl

theorem installed_append_unregister (route r : R) (calls : List (backend_call R)) :
    installed r (calls ++ [backend_call.unregister_route route]) =
      if route = r then false else installed r calls := by
  simp only [installed, track_append_singleton, track_step]
  split <;> rfl

theorem alternates_append_register (route r : R) (calls : List (backend_call R)) :
    alternates r (calls ++ [backend_call.register_route route]) =
      if route = r then (alternates r calls && !installed r calls)
      else alternates r calls := by
  simp only [alternates, installed, track_append_singleton, track_step]
  split <;> rfl

theorem alternates_append_unregister (route r : R) (calls : List (backend_call R)) :
    alternates r (calls ++ [backend_call.unregister_route route]) =
      if route = r then (alternates r calls && installed r calls)
      else alternates r calls := by
  simp only [alternates, installed, track_append_singleton, track_step]
  split <;> rfl

theorem has_route_add_route_self (B : RouteManagerType R σ) (self : base_route_manager R σ)
    (route : R) : has_route (add_route B self route).2 route = true := by
  simp [has_route, add_route_table, find_assign, find_subscript]

theorem has_route_add_route_ne (B : RouteManagerType R σ) (self : base_route_manager R σ)
    (route r : R) (hne : r ≠ route) :
    has_route (add_route B self route).2 r = has_route self r := by
  simp [has_route, find_add_route_ne B self route r hne]

theorem has_route_assign (route r : R) (count : Nat) (self : base_route_manager R σ) :
    has_route { m_routing_table := assign route count self.m_routing_table,
                derived := self.derived, calls := self.calls } r = has_route self r := by
  by_cases hr : r = route
  · subst hr
    simp [has_route, find_assign]
  · simp [has_route, find_assign_ne route r count _ hr]

theorem installed_add_route (B : RouteManagerType R σ) (self : base_route_manager R σ)
    (route : R) (hinv : ∀ r, installed r self.calls = has_route self r) :
    ∀ r, installed r (add_route B self route).2.calls
      = has_route (add_route B self route).2 r := by
  intro r
  by_cases hr : r = route
  · subst hr
    rw [has_route_add_route_self, add_route_calls]
    split
    · rw [installed_append_register]; simp
    · rename_i h
      rw [hinv]
      cases hfind : find r self.m_routing_table with
      | none => simp [hfind] at h
      | some count => simp [has_route, hfind]
  · rw [has_route_add_route_ne B self route r hr, add_route_calls]
    split
    · rw [installed_append_register, if_neg (Ne.symm hr), hinv]
    · exact hinv r

theorem installed_remove_route (B : RouteManagerType R σ) (self : base_route_manager R σ)
    (route : R) (hord : ordered self.m_routing_table)
    (hinv : ∀ r, installed r self.calls = has_route self r)
    (hok : ∃ b, (remove_route B self route).1 = .ok b) :
    ∀ r, installed r (remove_route B self route).2.calls
      = has_route (remove_route B self route).2 r := by
  intro r
  cases hfind : find route self.m_routing_table with
  | none =>
    have heq : remove_route B self route = (.ok false, self) := by
      simp [remove_route, hfind]
    rw [heq]; exact hinv r
  | some count =>
    rcases Nat.lt_trichotomy count 1 with h0 | h1 | h2
    · have hz : count = 0 := by omega
      subst hz
      rw [remove_route_eq_of_zero B self route hfind]; exact hinv r
    · subst h1
      rcases hres : B.unregister_route self.derived route with ⟨d, _ | err⟩
      · rw [remove_route_eq_of_last B self route d hfind hres]
        simp only [installed_append_unregister]
        by_cases hr : r = route
        · subst hr
          simp [has_route, find_erase r _ hord]
        · rw [if_neg (Ne.symm hr), hinv]
          simp [has_route, find_erase_ne route r _ hord hr]
      · obtain ⟨b, hb⟩ := hok
        simp [remove_route, hfind, hres] at hb
    · rw [remove_route_eq_of_shared B self route count hfind h2]
      simp only [has_route_assign]
      exact hinv r

theorem alternates_add_route (B : RouteManagerType R σ) (self : base_route_manager R σ)
    (route : R) (hinv : ∀ r, installed r self.calls = has_route self r)
    (hpos : ∀ e ∈ self.m_routing_table, 1 ≤ e.2)
    (halt : ∀ r, alternates r self.calls = true) :
    ∀ r, alternates r (add_route B self route).2.calls = true := by
  intro r
  rw [add_route_calls]
  split
  · rename_i h
    have hnone : find route self.m_routing_table = none := by
      cases hfind : find route self.m_routing_table with
      | none => rfl
      | some count =>
        have h1 := hpos _ (mem_keys_of_find _ _ _ hfind)
        simp [hfind] at h
        simp only at h1
        omega
    rw [alternates_append_register]
    split
    · rename_i hr
      subst hr
      rw [halt, hinv]
      simp [has_route, hnone]
    · exact halt r
  · exact halt r

theorem alternates_remove_route (B : RouteManagerType R σ) (self : base_route_manager R σ)
    (route : R) (hinv : ∀ r, installed r self.calls = has_route self r)
    (halt : ∀ r, alternates r self.calls = true) :
    ∀ r, alternates r (remove_route B self route).2.calls = true := by
  intro r
  rw [remove_route_calls]
  split
  · rename_i h
    rw [alternates_append_unregister]
    split
    · rename_i hr
      subst hr
      rw [halt, hinv]
      simp [has_route, h]
    · exact halt r
  · exact halt r

theorem installed_step (B : RouteManagerType R σ) (self : base_route_manager R σ)
    (call : client_call R) (hord : ordered self.m_routing_table)
    (hinv : ∀ r, installed r self.calls = has_route self r)
    (hok : ∃ b, outcome B self call = .ok b) :
    ∀ r, installed r (step B self call).calls = has_route (step B self call) r := by
  cases call with
  | add_route route => exact installed_add_route B self route hinv
  | remove_route route => exact installed_remove_route B self route hord hinv hok

theorem alternates_step (B : RouteManagerType R σ) (self : base_route_manager R σ)
    (call : client_call R) (hinv : ∀ r, installed r self.calls = has_route self r)
    (hpos : ∀ e ∈ self.m_routing_table, 1 ≤ e.2)
    (halt : ∀ r, alternates r self.calls = true) :
    ∀ r, alternates r (step B self call).calls = true := by
  cases call with
  | add_route route => exact alternates_add_route B self route hinv hpos halt
  | remove_route route => exact alternates_remove_route B self route hinv halt

/-- As long as no call fails, the routes installed according to the call log are the keys of
the table. -/
theorem run_installed (B : RouteManagerType R σ) (ops : List (client_call R)) :
    ∀ self : base_route_manager R σ, ordered self.m_routing_table →
      (∀ r, installed r self.calls = has_route self r) →
      (∀ o ∈ outcomes B self ops, ∃ b, o = .ok b) →
      ∀ r, installed r (run B self ops).calls = has_route (run B self ops) r := by
  induction ops with
  | nil => intro self _ hinv _; exact hinv
  | cons call rest ih =>
    intro self hord hinv hok
    rw [run_cons]
    have hhead : ∃ b, outcome B self call = .ok b :=
      hok _ (List.mem_cons_self _ _)
    exact ih _ (ordered_step B self call hord) (installed_step B self call hord hinv hhead)
      (fun o ho => hok o (List.mem_cons_of_mem _ ho))

/-- As long as no call fails and no count can wrap, the calls of the log alternate for every
route. -/
theorem run_alternates (B : RouteManagerType R σ) (ops : List (client_call R)) :
    ∀ (self : base_route_manager R σ) (k : Nat), ordered self.m_routing_table →
      (∀ r, installed r self.calls = has_route self r) →
      (∀ e ∈ self.m_routing_table, 1 ≤ e.2 ∧ e.2 ≤ k) →
      (∀ r, alternates r self.calls = true) →
      (∀ o ∈ outcomes B self ops, ∃ b, o = .ok b) →
      k + ops.countP client_call.is_add_route < unsigned_int_modulus →
      ∀ r, alternates r (run B self ops).calls = true := by
  induction ops with
  | nil => intro self k _ _ _ halt _ _; exact halt
  | cons call rest ih =>
    intro self k hord hinv hcounts halt hok hk
    rw [run_cons]
    have hhead : ∃ b, outcome B self call = .ok b :=
      hok _ (List.mem_cons_self _ _)
    have hcount : (call :: rest).countP client_call.is_add_route =
        (if call.is_add_route then 1 else 0) + rest.countP client_call.is_add_route := by
      rw [List.countP_cons]; omega
    rw [hcount] at hk
    exact ih _ _ (ordered_step B self call hord)
      (installed_step B self call hord hinv hhead)
      (step_counts B self call k hcounts (by omega))
      (alternates_step B self call hinv (fun e he => (hcounts e he).1) halt)
      (fun o ho => hok o (List.mem_cons_of_mem _ ho)) (by omega)

theorem outcomes_take_subset (B : RouteManagerType R σ) (self : base_route_manager R σ)
    (ops : List (client_call R)) (n : Nat) (o : Except system_error Bool)
    (ho : o ∈ outcomes B self (ops.take n)) : o ∈ outcomes B self ops := by
  have h := outcomes_append B (ops.take n) (ops.drop n) self
  rw [List.take_append_drop] at h
  rw [h]
  exact List.mem_append_left _ ho

theorem add_route_calls_of_pos (B : RouteManagerType R σ) (self : base_route_manager R σ)
    (route : R) (hpos : ∀ e ∈ self.m_routing_table, 1 ≤ e.2) :
    (add_route B self route).2.calls =
      if has_route self route = true then self.calls
      else self.calls ++ [backend_call.register_route route] := by
  rw [add_route_calls]
  cases hfind : find route self.m_routing_table with
  | none => simp [has_route, hfind]
  | some count =>
    have h1 := hpos _ (mem_keys_of_find _ _ _ hfind)
    simp only at h1
    have hne : count ≠ 0 := by omega
    simp [has_route, hfind, hne]

theorem outcomes_ok_of_never_fails (B : RouteManagerType R σ)
    (hreg : ∀ d r, (B.register_route d r).2 = none)
    (hunreg : ∀ d r, (B.unregister_route d r).2 = none) (ops : List (client_call R)) :
    ∀ self : base_route_manager R σ, ∀ o ∈ outcomes B self ops, ∃ b, o = .ok b := by
  induction ops with
  | nil => intro self o ho; simp [outcomes] at ho
  | cons call rest ih =>
    intro self o ho
    rcases List.mem_cons.mp ho with h | h
    · subst h
      cases call with
      | add_route route =>
        simp only [outcome, add_route]
        split
        · rcases hres : B.register_route self.derived route with ⟨d, _ | err⟩
          · exact ⟨true, rfl⟩
          · have := hreg self.derived route
            rw [hres] at this
            cases this
        · exact ⟨false, rfl⟩
      | remove_route route =>
        simp only [outcome, remove_route]
        cases hfind : find route self.m_routing_table with
        | none => exact ⟨false, rfl⟩
        | some count =>
          by_cases h1 : count = 1
          · rcases hres : B.unregister_route self.derived route with ⟨d, _ | err⟩
            · exact ⟨true, by simp [h1]⟩
            · have := hunreg self.derived route
              rw [hres] at this
              cases this
          · by_cases h2 : count > 1
            · exact ⟨false, by simp [h1, h2]⟩
            · exact ⟨false, by simp [h1, h2]⟩
    · exact ih _ o h

/-- The call log is the sequence of calls that the derived state has gone through. -/
theorem derived_step (B : RouteManagerType R σ) (self : base_route_manager R σ)
    (call : client_call R) (d : σ) (hinv : self.derived = after_calls B d self.calls) :
    (step B self call).derived = after_calls B d (step B self call).calls := by
  cases call with
  | add_route route =>
    simp only [step, add_route]
    split
    · rcases hres : B.register_route self.derived route with ⟨d1, _ | err⟩
      · simp only [after_calls_append_singleton, ← hinv, hres]
      · simp only [after_calls_append_singleton, ← hinv, hres]
    · exact hinv
  | remove_route route =>
    simp only [step, remove_route]
    cases hfind : find route self.m_routing_table with
    | none => exact hinv
    | some count =>
      by_cases h1 : count = 1
      · simp only [h1, if_true]
        rcases hres : B.unregister_route self.derived route with ⟨d1, _ | err⟩
        · simp only [after_calls_append_singleton, ← hinv, hres]
        · simp only [after_calls_append_singleton, ← hinv, hres]
      · by_cases h2 : count > 1
        · simp only [h1, if_false, h2, if_true]
          exact hinv
        · simp only [h1, if_false, h2]
          exact hinv

theorem derived_run (B : RouteManagerType R σ) (d : σ) (ops : List (client_call R)) :
    ∀ self : base_route_manager R σ, self.derived = after_calls B d self.calls →
      (run B self ops).derived = after_calls B d (run B self ops).calls := by
  induction ops with
  | nil => intro self h; exact h
  | cons call rest ih =>
    intro self h
    rw [run_cons]
    exact ih _ (derived_step B self call d h)

/-- C11, counterexample: `2 ^ 32 + 1` calls of `add_route(7)` on a fresh manager whose
derived class never throws. No call fails, route `7` is a key after `2 ^ 32` of the calls,
and the log of calls into the derived class ends as `register_route(7)` twice with no
`unregister_route(7)` between them: the calls for route `7` do not alternate, and the
second `register_route(7)` was issued while `7` was present. -/
theorem installed_alternates_counterexample :
    (∀ o ∈ outcomes (succeeding_backend Nat) (base_route_manager.fresh ())
        (List.replicate (2 ^ 32 + 1) (client_call.add_route 7)), ∃ b, o = .ok b) ∧
    has_route (run (succeeding_backend Nat) (base_route_manager.fresh ())
        (List.replicate (2 ^ 32) (client_call.add_route 7))) 7 = true ∧
    (run (succeeding_backend Nat) (base_route_manager.fresh ())
        (List.replicate (2 ^ 32 + 1) (client_call.add_route 7))).calls =
      [backend_call.register_route 7, backend_call.register_route 7] ∧
    alternates 7 (run (succeeding_backend Nat) (base_route_manager.fresh ())
        (List.replicate (2 ^ 32 + 1) (client_call.add_route 7))).calls = false := by
  have hA := (run_add_route_absent (succeeding_backend Nat) (base_route_manager.fresh ())
    (7 : Nat) 4294967294 () rfl (by simp [unsigned_int_modulus]) rfl).1
  have hn1 : 2 ^ 32 = 4294967294 + 1 + 1 := by norm_num
  have hn2 : 2 ^ 32 + 1 = 4294967294 + 1 + 2 := by norm_num
  have hrun1 : run (succeeding_backend Nat) (base_route_manager.fresh ())
      (List.replicate (2 ^ 32) (client_call.add_route 7)) =
      { m_routing_table := [(7, 0)], derived := (),
        calls := [backend_call.register_route 7] } := by
    rw [hn1, List.replicate_add, run_append, hA]
    rfl
  have hrun2 : run (succeeding_backend Nat) (base_route_manager.fresh ())
      (List.replicate (2 ^ 32 + 1) (client_call.add_route 7)) =
      { m_routing_table := [(7, 1)], derived := (),
        calls := [backend_call.register_route 7, backend_call.register_route 7] } := by
    rw [hn2, List.replicate_add, run_append, hA]
    rfl
  refine ⟨outcomes_ok_of_never_fails _ (fun _ _ => rfl) (fun _ _ => rfl) _ _, ?_, ?_, ?_⟩
  · rw [hrun1]; rfl
  · rw [hrun2]
  · rw [hrun2]; rfl

/-- C11 (amended): with keys in a linear order (a route type whose `operator<` is a strict
total order, as `std::map` requires of its comparator), take a sequence of `add_route` and
`remove_route` calls on a fresh manager in which no call fails. After every call (after
the first `n` calls, for every `n`) the routes installed through the derived class,
registered and not unregistered since, are exactly the keys of the table, and the call log
is the sequence of calls that the derived state has gone through. When the sequence has
fewer than `2 ^ 32` `add_route` calls, moreover, the `register_route` and
`unregister_route` calls of every route strictly alternate starting with
`register_route`; `add_route(route)` calls `register_route(route)` exactly when `route` is
absent, and `remove_route(route)` calls `unregister_route(route)` exactly when the count of
`route` is 1. -/
theorem installed_eq_keys (B : RouteManagerType R σ) (d : σ) (ops : List (client_call R))
    (hok : ∀ o ∈ outcomes B (base_route_manager.fresh d) ops, ∃ b, o = .ok b) :
    (∀ n route,
      installed route (run B (base_route_manager.fresh d) (ops.take n)).calls =
        has_route (run B (base_route_manager.fresh d) (ops.take n)) route) ∧
    (∀ n, (run B (base_route_manager.fresh d) (ops.take n)).derived =
      after_calls B d (run B (base_route_manager.fresh d) (ops.take n)).calls) ∧
    (ops.countP client_call.is_add_route < 2 ^ 32 →
      ∀ n route,
        alternates route (run B (base_route_manager.fresh d) (ops.take n)).calls = true ∧
        (add_route B (run B (base_route_manager.fresh d) (ops.take n)) route).2.calls =
          (if has_route (run B (base_route_manager.fresh d) (ops.take n)) route = true
           then (run B (base_route_manager.fresh d) (ops.take n)).calls
           else (run B (base_route_manager.fresh d) (ops.take n)).calls ++
             [backend_call.register_route route]) ∧
        (remove_route B (run B (base_route_manager.fresh d) (ops.take n)) route).2.calls =
          (if find route
              (run B (base_route_manager.fresh d) (ops.take n)).m_routing_table = some 1
           then (run B (base_route_manager.fresh d) (ops.take n)).calls ++
             [backend_call.unregister_route route]
           else (run B (base_route_manager.fresh d) (ops.take n)).calls)) := by
  have hfresh_ord : ordered (base_route_manager.fresh d : base_route_manager R σ
      ).m_routing_table := by
    simp [base_route_manager.fresh, ordered]
  have hfresh_inv : ∀ r, installed r (base_route_manager.fresh d : base_route_manager R σ
      ).calls = has_route (base_route_manager.fresh d : base_route_manager R σ) r := by
    intro r; rfl
  have htake : ∀ n, ∀ o ∈ outcomes B (base_route_manager.fresh d) (ops.take n),
      ∃ b, o = .ok b :=
    fun n o ho => hok o (outcomes_take_subset B _ ops n o ho)
  refine ⟨fun n route => run_installed B _ _ hfresh_ord hfresh_inv (htake n) route,
    fun n => derived_run B d (ops.take n) _ rfl, ?_⟩
  intro hadds n route
  have hle : (ops.take n).countP client_call.is_add_route
      ≤ ops.countP client_call.is_add_route :=
    (List.take_sublist n ops).countP_le _
  have hlt : 0 + (ops.take n).countP client_call.is_add_route < unsigned_int_modulus := by
    simp only [unsigned_int_modulus]; omega
  have hempty : ∀ e ∈ (base_route_manager.fresh d : base_route_manager R σ
      ).m_routing_table, 1 ≤ e.2 ∧ e.2 ≤ 0 := by
    intro e he; simp [base_route_manager.fresh] at he
  have hcounts := run_counts B (ops.take n) (base_route_manager.fresh d) 0 hempty hlt
  refine ⟨?_, ?_, remove_route_calls B _ route⟩
  · exact run_alternates B (ops.take n) _ 0 hfresh_ord hfresh_inv hempty
      (fun r => rfl) (htake n) hlt route
  · exact add_route_calls_of_pos B _ route (fun e he => (hcounts e he).1)

/-- C11 at four calls on a fresh manager whose derived class never throws: after all four
(`n = 4`) routes `3` and `7` are installed and are the keys, and the calls for `7`
alternate. -/
theorem installed_eq_keys_witness :
    ((run (succeeding_backend Nat) (base_route_manager.fresh ())
      [client_call.add_route 7, client_call.add_route 3, client_call.remove_route 7,
        client_call.add_route 7]).calls =
      [backend_call.register_route 7, backend_call.register_route 3,
        backend_call.unregister_route 7, backend_call.register_route 7]) ∧
    installed 7 (run (succeeding_backend Nat) (base_route_manager.fresh ())
      ([client_call.add_route 7, client_call.add_route 3, client_call.remove_route 7,
        client_call.add_route 7].take 4)).calls =
      has_route (run (succeeding_backend Nat) (base_route_manager.fresh ())
      ([client_call.add_route 7, client_call.add_route 3, client_call.remove_route 7,
        client_call.add_route 7].take 4)) 7 ∧
    alternates 7 (run (succeeding_backend Nat) (base_route_manager.fresh ())
      ([client_call.add_route 7, client_call.add_route 3, client_call.remove_route 7,
        client_call.add_route 7].take 4)).calls = true :=
  have h := installed_eq_keys (succeeding_backend Nat) ()
    [client_call.add_route 7, client_call.add_route 3, client_call.remove_route 7,
      client_call.add_route 7]
    (outcomes_ok_of_never_fails _ (fun _ _ => rfl) (fun _ _ => rfl) _ _)
  ⟨by decide, h.1 4 7, (h.2.2 (by decide) 4 7).1⟩

end installed_theorems

/-! ## has_route -/

section has_route_theorems

variable {R σ : Type} [LinearOrder R]

open routing_table_type

/-- C12: the expression that the body of `has_route` returns,
`m_routing_table.find(route) != m_routing_table.end()`, is true exactly when `route` is a
key of the table. The member itself is declared `void`, so this value does not reach a
caller. -/
theorem has_route_expression_iff_key (self : base_route_manager R σ) (route : R)
    (hord : ordered self.m_routing_table) :
    has_route self route = true ↔ route ∈ self.m_routing_table.map Prod.fst := by
  constructor
  · intro h
    obtain ⟨count, hcount⟩ := Option.isSome_iff_exists.mp h
    exact List.mem_map.mpr ⟨(route, count), mem_keys_of_find _ _ _ hcount, rfl⟩
  · intro h
    obtain ⟨⟨k, v⟩, he, hk⟩ := List.mem_map.mp h
    simp only at hk
    subst hk
    simp [has_route, find_of_mem k v _ hord he]

/-- C12 at the table holding routes `3`, `7`, `9`: the expression is true for `7`. -/
theorem has_route_expression_iff_key_witness :
    ordered ([(3, 2), (7, 1), (9, 5)] : routing_table_type Nat) ∧
    has_route ({ m_routing_table := [(3, 2), (7, 1), (9, 5)], derived := (), calls := [] }
      : base_route_manager Nat Unit) 7 = true :=
  have hord : ordered ([(3, 2), (7, 1), (9, 5)] : routing_table_type Nat) := by
    simp [ordered]
  ⟨hord, (has_route_expression_iff_key
    ({ m_routing_table := [(3, 2), (7, 1), (9, 5)], derived := (), calls := [] }
      : base_route_manager Nat Unit) 7 hord).mpr (by decide)⟩

end has_route_theorems

/-! ## The manager on the header's own route type

The route type of the header is `base_routing_table_entry`, and its `operator<` is the
comparator of the map. The statements below run the manager with the map of libstdc++ on
entries `(interface, network, no gateway)` over natural numbers. Every call into the
derived class is recorded by `recording_backend` in the derived state. -/

namespace libstdcxx

/-- C1: on a fresh manager, `add_route((1,2))` and then `add_route((2,1))`. Before the
second call `(2,1)` is absent (the `has_route` expression is false); the call returns
`true`, calls `register_route((2,1))` once and creates a node for `(2,1)` with count 1
(iteration visits `(2,1)` and `(1,2)`), but the `has_route` expression for `(2,1)` is
still false afterwards: under `operator<` both `(1,2) < (2,1)` and `(2,1) < (1,2)` hold,
the node is linked as the left child of `(1,2)` and the lookup goes right. -/
theorem add_route_absent_not_found :
    replay_has_route [] [client_call.add_route (plain_route 1 2)] (plain_route 2 1)
      = some false ∧
    (replay []
        [client_call.add_route (plain_route 1 2), client_call.add_route (plain_route 2 1)]
      ).map (fun r => r.1) = some [.ok true, .ok true] ∧
    replay_received []
        [client_call.add_route (plain_route 1 2), client_call.add_route (plain_route 2 1)]
      = some [backend_call.register_route (plain_route 1 2),
          backend_call.register_route (plain_route 2 1)] ∧
    replay_nodes []
        [client_call.add_route (plain_route 1 2), client_call.add_route (plain_route 2 1)]
      = some [some (plain_route 1 2, 1), some (plain_route 2 1, 1)] ∧
    replay_keys []
        [client_call.add_route (plain_route 1 2), client_call.add_route (plain_route 2 1)]
      = some [plain_route 2 1, plain_route 1 2] ∧
    replay_has_route []
        [client_call.add_route (plain_route 1 2), client_call.add_route (plain_route 2 1)]
        (plain_route 2 1) = some false :=
  ⟨rfl, rfl, rfl, rfl, rfl, rfl⟩

/-- C3: after `add_route((1,2))` and `add_route((2,1))` the map holds a node for `(2,1)`
with count exactly 1, and `unregister_route` would return; yet `remove_route((2,1))` returns
`false`, calls no `unregister_route` and erases nothing, because its `find` misses the
node. -/
theorem remove_route_last_not_found :
    replay_nodes []
        [client_call.add_route (plain_route 1 2), client_call.add_route (plain_route 2 1)]
      = some [some (plain_route 1 2, 1), some (plain_route 2 1, 1)] ∧
    (replay []
        [client_call.add_route (plain_route 1 2), client_call.add_route (plain_route 2 1),
          client_call.remove_route (plain_route 2 1)]
      ).map (fun r => r.1) = some [.ok true, .ok true, .ok false] ∧
    replay_received []
        [client_call.add_route (plain_route 1 2), client_call.add_route (plain_route 2 1),
          client_call.remove_route (plain_route 2 1)]
      = some [backend_call.register_route (plain_route 1 2),
          backend_call.register_route (plain_route 2 1)] ∧
    replay_nodes []
        [client_call.add_route (plain_route 1 2), client_call.add_route (plain_route 2 1),
          client_call.remove_route (plain_route 2 1)]
      = some [some (plain_route 1 2, 1), some (plain_route 2 1, 1)] ∧
    replay_keys []
        [client_call.add_route (plain_route 1 2), client_call.add_route (plain_route 2 1),
          client_call.remove_route (plain_route 2 1)]
      = some [plain_route 2 1, plain_route 1 2] :=
  ⟨rfl, rfl, rfl, rfl, rfl⟩

/-- C4: with `(1,2)` in the map, two `add_route((2,1))` calls followed by one
`remove_route((2,1))`. The `remove_route` returns `false` and calls nothing, but no count
is decremented (the two adds made two nodes for `(2,1)`, each with count 1, and both are
still there with count 1) and the `has_route` expression for `(2,1)` is false. -/
theorem remove_route_shared_not_found :
    (replay []
        [client_call.add_route (plain_route 1 2), client_call.add_route (plain_route 2 1),
          client_call.add_route (plain_route 2 1), client_call.remove_route (plain_route 2 1)]
      ).map (fun r => r.1) = some [.ok true, .ok true, .ok true, .ok false] ∧
    replay_nodes []
        [client_call.add_route (plain_route 1 2), client_call.add_route (plain_route 2 1),
          client_call.add_route (plain_route 2 1)]
      = some [some (plain_route 1 2, 1), some (plain_route 2 1, 1),
          some (plain_route 2 1, 1)] ∧
    replay_nodes []
        [client_call.add_route (plain_route 1 2), client_call.add_route (plain_route 2 1),
          client_call.add_route (plain_route 2 1), client_call.remove_route (plain_route 2 1)]
      = some [some (plain_route 1 2, 1), some (plain_route 2 1, 1),
          some (plain_route 2 1, 1)] ∧
    replay_received []
        [client_call.add_route (plain_route 1 2), client_call.add_route (plain_route 2 1),
          client_call.add_route (plain_route 2 1), client_call.remove_route (plain_route 2 1)]
      = some [backend_call.register_route (plain_route 1 2),
          backend_call.register_route (plain_route 2 1),
          backend_call.register_route (plain_route 2 1)] ∧
    replay_has_route []
        [client_call.add_route (plain_route 1 2), client_call.add_route (plain_route 2 1),
          client_call.add_route (plain_route 2 1), client_call.remove_route (plain_route 2 1)]
        (plain_route 2 1) = some false :=
  ⟨rfl, rfl, rfl, rfl, rfl⟩

/-- C6: three distinct routes `(1,2)`, `(2,1)`, `(3,0)` are added once each, each
`add_route` returns `true` and calls `register_route`, and the map has three nodes; the
destructor then calls `unregister_route` only for `(2,1)` and `(1,2)`. The node of `(3,0)`
took the place of the node of `(2,1)` as left child of `(1,2)`, iteration starts at the
node of `(2,1)` that `begin()` still names and never reaches `(3,0)`. -/
theorem destructor_skips_key :
    (replay []
        [client_call.add_route (plain_route 1 2), client_call.add_route (plain_route 2 1),
          client_call.add_route (plain_route 3 0)]
      ).map (fun r => r.1) = some [.ok true, .ok true, .ok true] ∧
    replay_nodes []
        [client_call.add_route (plain_route 1 2), client_call.add_route (plain_route 2 1),
          client_call.add_route (plain_route 3 0)]
      = some [some (plain_route 1 2, 1), some (plain_route 2 1, 1),
          some (plain_route 3 0, 1)] ∧
    (replay []
        [client_call.add_route (plain_route 1 2), client_call.add_route (plain_route 2 1),
          client_call.add_route (plain_route 3 0)]
      ).map (fun r => r.2.m_routing_table.node_count) = some 3 ∧
    replay_destructor_received []
        [client_call.add_route (plain_route 1 2), client_call.add_route (plain_route 2 1),
          client_call.add_route (plain_route 3 0)]
      = some [backend_call.register_route (plain_route 1 2),
          backend_call.register_route (plain_route 2 1),
          backend_call.register_route (plain_route 3 0),
          backend_call.unregister_route (plain_route 2 1),
          backend_call.unregister_route (plain_route 1 2)] :=
  ⟨rfl, rfl, rfl, rfl⟩

/-- C9: with `(1,2)` in the map, `add_route((2,1))` whose `register_route` throws error 5.
The call ends with the error and a node for `(2,1)` with count 1 is in the map, but the
`has_route` expression for `(2,1)` is false, and the next `add_route((2,1))` returns
`true` and calls `register_route((2,1))` again. -/
theorem add_route_register_fails_registers_again :
    (replay [none, some ⟨5⟩]
        [client_call.add_route (plain_route 1 2), client_call.add_route (plain_route 2 1)]
      ).map (fun r => r.1) = some [.ok true, .error ⟨5⟩] ∧
    replay_nodes [none, some ⟨5⟩]
        [client_call.add_route (plain_route 1 2), client_call.add_route (plain_route 2 1)]
      = some [some (plain_route 1 2, 1), some (plain_route 2 1, 1)] ∧
    replay_has_route [none, some ⟨5⟩]
        [client_call.add_route (plain_route 1 2), client_call.add_route (plain_route 2 1)]
        (plain_route 2 1) = some false ∧
    (replay [none, some ⟨5⟩]
        [client_call.add_route (plain_route 1 2), client_call.add_route (plain_route 2 1),
          client_call.add_route (plain_route 2 1)]
      ).map (fun r => r.1) = some [.ok true, .error ⟨5⟩, .ok true] ∧
    replay_received [none, some ⟨5⟩]
        [client_call.add_route (plain_route 1 2), client_call.add_route (plain_route 2 1),
          client_call.add_route (plain_route 2 1)]
      = some [backend_call.register_route (plain_route 1 2),
          backend_call.register_route (plain_route 2 1),
          backend_call.register_route (plain_route 2 1)] :=
  ⟨rfl, rfl, rfl, rfl, rfl⟩

/-- C15: with `(1,2)` in the map and `(2,1)` absent, `n = 2` calls of `add_route((2,1))`
followed by 2 calls of `remove_route((2,1))`, every call into the derived class returning.
The four calls return `true`, `true`, `false`, `false` (not `true`, `false`, `false`,
`true`), `register_route((2,1))` is called twice and `unregister_route((2,1))` never, and
the map ends with two more nodes than it started with. (On a fresh manager, the first
conjunct, the same four calls do return `true`, `false`, `false`, `true`.) -/
theorem add_remove_unbalanced :
    (replay []
        [client_call.add_route (plain_route 2 1), client_call.add_route (plain_route 2 1),
          client_call.remove_route (plain_route 2 1), client_call.remove_route (plain_route 2 1)]
      ).map (fun r => r.1) = some [.ok true, .ok false, .ok false, .ok true] ∧
    replay_has_route [] [client_call.add_route (plain_route 1 2)] (plain_route 2 1)
      = some false ∧
    (replay []
        [client_call.add_route (plain_route 1 2), client_call.add_route (plain_route 2 1),
          client_call.add_route (plain_route 2 1), client_call.remove_route (plain_route 2 1),
          client_call.remove_route (plain_route 2 1)]
      ).map (fun r => r.1) = some [.ok true, .ok true, .ok true, .ok false, .ok false] ∧
    replay_received []
        [client_call.add_route (plain_route 1 2), client_call.add_route (plain_route 2 1),
          client_call.add_route (plain_route 2 1), client_call.remove_route (plain_route 2 1),
          client_call.remove_route (plain_route 2 1)]
      = some [backend_call.register_route (plain_route 1 2),
          backend_call.register_route (plain_route 2 1),
          backend_call.register_route (plain_route 2 1)] ∧
    replay_nodes [] [client_call.add_route (plain_route 1 2)]
      = some [some (plain_route 1 2, 1)] ∧
    replay_nodes []
        [client_call.add_route (plain_route 1 2), client_call.add_route (plain_route 2 1),
          client_call.add_route (plain_route 2 1), client_call.remove_route (plain_route 2 1),
          client_call.remove_route (plain_route 2 1)]
      = some [some (plain_route 1 2, 1), some (plain_route 2 1, 1),
          some (plain_route 2 1, 1)] :=
  ⟨rfl, rfl, rfl, rfl, rfl, rfl⟩

/-- C16: after `add_route((2,2))` and `add_route((1,3))` the `has_route` expression for
`(1,3)` is false; `add_route((2,1))`, a call on another route, makes it true: inserting
`(2,1)` rotates the tree, the node of `(1,3)` becomes the root and the lookup now finds
it. -/
theorem other_route_touched :
    plain_route 1 3 ≠ plain_route 2 1 ∧
    replay_has_route []
        [client_call.add_route (plain_route 2 2), client_call.add_route (plain_route 1 3)]
        (plain_route 1 3) = some false ∧
    replay_has_route []
        [client_call.add_route (plain_route 2 2), client_call.add_route (plain_route 1 3),
          client_call.add_route (plain_route 2 1)]
        (plain_route 1 3) = some true ∧
    (replay []
        [client_call.add_route (plain_route 2 2), client_call.add_route (plain_route 1 3),
          client_call.add_route (plain_route 2 1)]
      ).map (fun r => r.2.m_routing_table.root) = some (.node 1) :=
  ⟨by decide, rfl, rfl, rfl⟩

end libstdcxx

end asiotap
